import Mathlib

/-!
Verification development for the LAGO-data cataloguing scripts.

The repository consists of three Python pipelines that group on-disk files,
hash their contents, extract provenance metadata and emit one JSON
descriptor per complete file group:

* `S0_process_files.py`  (namespace `S0` below) - the SimulationV2 variant,
* `S1_process_files.py`  (namespace `S1` below) - the DualStream variant,
* `L0_process_files.py`  (namespace `L0` below) - the RawMeasurement variant.

The shallow embedding models bytes as natural numbers below 256, file
contents and directory listings explicitly, and Python exceptions as an
`Except` error channel.  String manipulation mirrors the Python string
methods used by the source (split, rsplit, replace, strip), implemented
over character lists so that everything reduces inside the kernel.
-/

/-- Python exception kinds that the three scripts can raise. -/
inductive PyErr where
  | osError
  | valueError
  | attributeError
  | typeError
  | jsonError
  | keyError
  | indexError
deriving DecidableEq, Repr

/-! ## Character-list string helpers (Python string methods) -/

/-- Split a character list at every occurrence of the separator character,
mirroring the Python `str.split(sep)` semantics for a one-character
separator (no maxsplit): the result always has at least one element. -/
def chSplit (sep : Char) : List Char → List (List Char)
  | [] => [[]]
  | c :: cs =>
    let r := chSplit sep cs
    if c = sep then [] :: r
    else match r with
      | [] => [[c]]
      | h :: t => (c :: h) :: t

/-- Python `s.split(sep)` for a one-character separator. -/
def pySplit (s : String) (sep : Char) : List String :=
  (chSplit sep s.data).map String.mk

/-- Python `s.split(sep, maxsplit)`: at most `maxsplit + 1` parts; the final
part keeps any further separators. -/
def pySplitN (s : String) (sep : Char) (maxsplit : Nat) : List String :=
  let parts := pySplit s sep
  if parts.length ≤ maxsplit + 1 then parts
  else parts.take maxsplit ++ [String.intercalate (String.mk [sep]) (parts.drop maxsplit)]

/-- Replace every (leftmost, non-overlapping) occurrence of the non-empty
pattern, mirroring Python `str.replace` for non-empty patterns.  The
recursion is driven by a fuel counter so that the kernel can evaluate it;
every step consumes at least one character, so fuel equal to the length of
the list is always enough. -/
def chReplaceAux (pat rep : List Char) : Nat → List Char → List Char
  | _, [] => []
  | 0, l => l
  | fuel + 1, c :: cs =>
    if !pat.isEmpty && pat.isPrefixOf (c :: cs) then
      rep ++ chReplaceAux pat rep fuel ((c :: cs).drop pat.length)
    else
      c :: chReplaceAux pat rep fuel cs

def chReplace (pat rep : List Char) (l : List Char) : List Char :=
  chReplaceAux pat rep l.length l

/-- Python `s.replace(pat, rep)` (all occurrences, left to right). -/
def pyReplace (s pat rep : String) : String :=
  String.mk (chReplace pat.data rep.data s.data)

/-- Python `str.strip()`: drop whitespace from both ends. -/
def pyStrip (s : String) : String :=
  String.mk (((s.data.dropWhile Char.isWhitespace).reverse.dropWhile Char.isWhitespace).reverse)

/-- Does `p` occur as a leading segment of `s`? -/
def strStarts (s p : String) : Bool := p.data.isPrefixOf s.data

/-- Does `p` occur as a trailing segment of `s`? -/
def strEnds (s p : String) : Bool := p.data.isSuffixOf s.data

/-- Python `filename.rsplit(sep, 2)[0]` for the dot separator: the file name
with its last two dot-separated components removed (used by the L0 script to
strip the `.dat.bz2` / `.mtd.bz2` double extension). -/
def rsplit2head (s : String) : String :=
  let parts := pySplit s '.'
  if parts.length ≤ 2 then parts.headD s
  else String.intercalate "." (parts.take (parts.length - 2))

/-- Lexicographic comparison of character lists by code point, the order
Python uses to compare strings. -/
def chLt : List Char → List Char → Bool
  | [], [] => false
  | [], _ :: _ => true
  | _ :: _, [] => false
  | a :: as, b :: bs =>
    if a.toNat < b.toNat then true
    else if b.toNat < a.toNat then false
    else chLt as bs

/-- Python string comparison `a < b`. -/
def pyStrLt (a b : String) : Bool := chLt a.data b.data

/-- One step of Python `max(pairs, key=lambda x: x[1])`: keep the current
maximum unless the next element is strictly greater. -/
def pyMaxStep (a b : String × String) : String × String :=
  if pyStrLt a.2 b.2 then b else a

/-- The `os.path.join` operation for the POSIX flavour used by the scripts. -/
def osJoin (a b : String) : String :=
  if strStarts b "/" then b
  else if a = "" then b
  else if strEnds a "/" then a ++ b
  else a ++ "/" ++ b

/-! ## SHA-256

`hashlib.sha256` is embedded as a pure function from the byte sequence that
the scripts feed into the accumulator (the concatenation of all `update`
calls) to the lowercase hex digest.  All words are `Nat`s reduced modulo
`2 ^ 32` explicitly. -/

/-- Reduce modulo `2 ^ 32`. -/
def w32 (x : Nat) : Nat := x % 4294967296

/-- Right rotation of a 32-bit word. -/
def rotr32 (n x : Nat) : Nat := w32 ((x >>> n) ||| (x <<< (32 - n)))

def shaCh (x y z : Nat) : Nat := (x &&& y) ^^^ ((x ^^^ 4294967295) &&& z)

def shaMaj (x y z : Nat) : Nat := (x &&& y) ^^^ (x &&& z) ^^^ (y &&& z)

def bigSigma0 (x : Nat) : Nat := rotr32 2 x ^^^ rotr32 13 x ^^^ rotr32 22 x

def bigSigma1 (x : Nat) : Nat := rotr32 6 x ^^^ rotr32 11 x ^^^ rotr32 25 x

def smallSigma0 (x : Nat) : Nat := rotr32 7 x ^^^ rotr32 18 x ^^^ (x >>> 3)

def smallSigma1 (x : Nat) : Nat := rotr32 17 x ^^^ rotr32 19 x ^^^ (x >>> 10)

/-- The 64 SHA-256 round constants, written in decimal. -/
def sha256K : List Nat :=
  [1116352408, 1899447441, 3049323471, 3921009573, 961987163,
   1508970993, 2453635748, 2870763221, 3624381080, 310598401,
   607225278, 1426881987, 1925078388, 2162078206, 2614888103,
   3248222580, 3835390401, 4022224774, 264347078, 604807628,
   770255983, 1249150122, 1555081692, 1996064986, 2554220882,
   2821834349, 2952996808, 3210313671, 3336571891, 3584528711,
   113926993, 338241895, 666307205, 773529912, 1294757372,
   1396182291, 1695183700, 1986661051, 2177026350, 2456956037,
   2730485921, 2820302411, 3259730800, 3345764771, 3516065817,
   3600352804, 4094571909, 275423344, 430227734, 506948616,
   659060556, 883997877, 958139571, 1322822218, 1537002063,
   1747873779, 1955562222, 2024104815, 2227730452, 2361852424,
   2428436474, 2756734187, 3204031479, 3329325298]

/-- The initial SHA-256 state, written in decimal. -/
def sha256H0 : List Nat :=
  [1779033703, 3144134277, 1013904242, 2773480762,
   1359893119, 2600822924, 528734635, 1541459225]

/-- Pack big-endian groups of four bytes into 32-bit words. -/
def toWords : List Nat → List Nat
  | a :: b :: c :: d :: rest => (((a * 256 + b) * 256 + c) * 256 + d) :: toWords rest
  | _ => []

/-- Big-endian 8-byte encoding of the bit length. -/
def lenBytes64 (n : Nat) : List Nat :=
  [(n >>> 56) % 256, (n >>> 48) % 256, (n >>> 40) % 256, (n >>> 32) % 256,
   (n >>> 24) % 256, (n >>> 16) % 256, (n >>> 8) % 256, n % 256]

/-- SHA-256 padding: a `0x80` byte, zeros up to 56 mod 64, then the bit
length in 8 big-endian bytes. -/
def sha256Pad (msg : List Nat) : List Nat :=
  let r := msg.length % 64
  msg ++ 0x80 :: List.replicate ((119 - r) % 64) 0 ++ lenBytes64 (8 * msg.length)

/-- One step of the message-schedule extension. -/
def schedStep (w : List Nat) : List Nat :=
  let n := w.length
  let g := fun i => w.getD (n - i) 0
  w ++ [w32 (smallSigma1 (g 2) + g 7 + smallSigma0 (g 15) + g 16)]

/-- Iterate the message-schedule extension. -/
def schedN : Nat → List Nat → List Nat
  | 0, w => w
  | k + 1, w => schedN k (schedStep w)

/-- One SHA-256 round on the eight-word working state. -/
def roundStep (st : List Nat) (kw : Nat × Nat) : List Nat :=
  match st with
  | [a, b, c, d, e, f, g, h] =>
    let t1 := w32 (h + bigSigma1 e + shaCh e f g + kw.1 + kw.2)
    let t2 := w32 (bigSigma0 a + shaMaj a b c)
    [w32 (t1 + t2), a, b, c, w32 (d + t1), e, f, g]
  | st => st

/-- Compress one 64-byte block into the state. -/
def compressBlock (h : List Nat) (block : List Nat) : List Nat :=
  let w := schedN 48 (toWords block)
  let st := (sha256K.zip w).foldl roundStep h
  (h.zip st).map (fun p => w32 (p.1 + p.2))

/-- Fold the compression function over consecutive 64-byte blocks.  Fuel
equal to the number of remaining bytes is always sufficient because every
step consumes at least one byte. -/
def sha256BlocksAux (h : List Nat) : Nat → List Nat → List Nat
  | _, [] => h
  | 0, _ :: _ => h
  | fuel + 1, b :: rest =>
    sha256BlocksAux (compressBlock h ((b :: rest).take 64)) fuel ((b :: rest).drop 64)

def sha256Blocks (h : List Nat) (l : List Nat) : List Nat :=
  sha256BlocksAux h l.length l

/-- One lowercase hex digit. -/
def hexDigit (n : Nat) : Char :=
  if n < 10 then Char.ofNat (48 + n) else Char.ofNat (87 + n)

/-- Eight lowercase hex digits of a 32-bit word, most significant first. -/
def hexWord (x : Nat) : List Char :=
  [hexDigit ((x >>> 28) % 16), hexDigit ((x >>> 24) % 16), hexDigit ((x >>> 20) % 16),
   hexDigit ((x >>> 16) % 16), hexDigit ((x >>> 12) % 16), hexDigit ((x >>> 8) % 16),
   hexDigit ((x >>> 4) % 16), hexDigit (x % 16)]

/-- The lowercase hex SHA-256 digest of a byte sequence, as returned by
`hashlib.sha256(data).hexdigest()`. -/
def sha256hex (msg : List Nat) : String :=
  String.mk ((sha256Blocks sha256H0 (sha256Pad msg)).map hexWord).flatten

/-! ## Chunked reading and the ASCII filter -/

/-- Split a list into consecutive chunks of size `n`, mirroring the
`while chunk := f.read(n)` loops of the scripts.  A Python `read(0)` returns
an empty bytes object at once, so the loop body never runs and no chunk is
fed to the hasher.  Fuel equal to the length of the list is always enough
because every step with positive `n` consumes at least one element. -/
def chunksOfAux {α : Type} (n : Nat) : Nat → List α → List (List α)
  | _, [] => []
  | 0, _ :: _ => []
  | fuel + 1, c :: cs =>
    if n = 0 then [] else (c :: cs).take n :: chunksOfAux n fuel ((c :: cs).drop n)

def chunksOf {α : Type} (n : Nat) (l : List α) : List (List α) :=
  chunksOfAux n l.length l

/-- Model of `chunk.decode("ascii", errors="ignore").encode("ascii")`: every byte
that is not valid ASCII (at least 0x80) is dropped, the rest survive
unchanged. -/
def asciiChunk (c : List Nat) : List Nat := c.filter (fun b => b < 128)

/-! ## Data model shared by the three scripts -/

/-- Loosely typed node of a JSON-LD graph: records which of the three
scanned attributes the node exposes. -/
structure JNode where
  accessURL : Option String := none
  servesDataset : Option String := none
  endedAtTime : Option String := none
deriving DecidableEq, Repr, Inhabited

/-- A parsed JSON-LD document: top-level creator id, title and the graph
array (`none` when the corresponding key is absent from the document). -/
structure JsonLD where
  creatorId : Option String := none
  title : Option String := none
  graph : Option (List JNode) := none
deriving DecidableEq, Repr, Inhabited

/-- An on-disk file as the scripts see it: `bytes` is the raw byte content
(plain `open`), `dbytes` the bz2-decompressed byte content, `lines` the
text lines of the decompressed content, `doc` the JSON parse of the raw
content (`none` when it is not valid JSON).  `readable` is false for a file
whose read raises OSError. -/
structure PFile where
  readable : Bool := true
  bytes : List Nat := []
  dbytes : List Nat := []
  lines : List String := []
  doc : Option JsonLD := none
deriving DecidableEq, Repr, Inhabited

/-- A directory tree: association list from path to file content. -/
abbrev FS := List (String × PFile)

def fsGet (fs : FS) (p : String) : Option PFile :=
  (fs.find? (fun e => e.1 == p)).map (fun e => e.2)

/-- Model of `os.path.exists`. -/
def pexists (fs : FS) (p : String) : Bool := (fsGet fs p).isSome

/-- The diagnostic lines printed by the scripts. -/
inductive LogMsg where
  | readError (path : String)
  | skip (base : String) (missing : List (Option String))
  | skipIncomplete (base : String)
  | skipReadError (base : String)
  | skipMetaError (base : String)
  | generated (path : String)
deriving DecidableEq, Repr

/-- What processing one candidate group produces: descriptor writes,
diagnostics, and the uncaught exception if the group aborted the run. -/
structure StepOut (δ : Type) where
  writes : List (String × δ) := []
  logs : List LogMsg := []
  err : Option PyErr := none
deriving DecidableEq, Repr

/-- The observable result of a whole run: descriptor files written,
diagnostics printed, and the uncaught exception that aborted the run. -/
structure RunResult (δ : Type) where
  writes : List (String × δ) := []
  logs : List LogMsg := []
  crash : Option PyErr := none
deriving DecidableEq, Repr

/-- The `{hash, location}` pair occurring in the descriptors. -/
structure ArtifactRef where
  hash : Option String := none
  location : Option String := none
deriving DecidableEq, Repr, Inhabited

/-! ## The S0 script (SimulationV2 variant) -/

namespace S0

/-- Byte stream fed to the hasher by `sha256_hash`: plain binary read in
fixed-size chunks, chunks concatenated unchanged. -/
def sha256_hash_stream (bytes : List Nat) (csz : Nat) : String :=
  sha256hex (chunksOf csz bytes).flatten

/-- Model of `sha256_hash` (S0 lines 8-18): plain read; a missing or unreadable file
raises an uncaught OSError. -/
def sha256_hash (fs : FS) (p : String) : Except PyErr String :=
  match fsGet fs p with
  | none => .error .osError
  | some f => if f.readable then .ok (sha256_hash_stream f.bytes 8192) else .error .osError

/-- Byte stream fed by `sha256_bzip2_hash`: decompressed bytes read in
chunks, each chunk ASCII-filtered before being fed to the accumulator. -/
def sha256_bzip2_hash_stream (dbytes : List Nat) (csz : Nat) : String :=
  sha256hex ((chunksOf csz dbytes).map asciiChunk).flatten

/-- Model of `sha256_bzip2_hash` (S0 lines 21-33): bz2 read with ASCII-filtered
hashing; OSError is caught, logged, and turned into a None result. -/
def sha256_bzip2_hash (fs : FS) (p : String) : Option String × List LogMsg :=
  match fsGet fs p with
  | none => (none, [.readError p])
  | some f =>
    if f.readable then (some (sha256_bzip2_hash_stream f.dbytes 8192), [])
    else (none, [.readError p])

/-- The tuple returned by `process_jsonld`. -/
structure Extracted where
  servesDataset : Option String
  file_id : Option String
  orcid : Option String
  access_url : Option String
  site_name : String
  type_data : String
  generation_date : Option String
deriving DecidableEq, Repr

/-- Scan the graph array for the first node exposing the attribute, like
`next((item for item in data.get("@graph", [ emptyNode ]) if get(item) is
not None), None).get(attr, None)`: when no node exposes the attribute the
source calls `.get` on None and raises AttributeError. -/
def graphFirst (get : JNode → Option String) (g : Option (List JNode)) :
    Except PyErr (Option String) :=
  match (g.getD [{}]).find? (fun n => (get n).isSome) with
  | none => .error .attributeError
  | some n => .ok (get n)

/-- Model of `process_jsonld` (S0 lines 38-51).  A missing or unreadable file raises
OSError; invalid JSON raises a decode error; both are uncaught. -/
def process_jsonld (fs : FS) (p : String) : Except PyErr Extracted :=
  match fsGet fs p with
  | none => .error .osError
  | some f =>
    if f.readable then
      match f.doc with
      | none => .error .jsonError
      | some data =>
        match graphFirst (fun n => n.accessURL) data.graph with
        | .error e => .error e
        | .ok access_url =>
        match graphFirst (fun n => n.servesDataset) data.graph with
        | .error e => .error e
        | .ok servesDataset =>
        match graphFirst (fun n => n.endedAtTime) data.graph with
        | .error e => .error e
        | .ok generation_date =>
        match data.title with
        | none => .error .keyError
        | some title =>
        match (pySplit title '_')[1]? with
        | none => .error .indexError
        | some site_name =>
        .ok ⟨servesDataset, data.title, data.creatorId, access_url, site_name,
             (pySplit title '_').headD "", generation_date⟩
    else .error .osError

/-- The descriptor JSON written by the S0 script, with its field order. -/
structure Descriptor where
  Id : String
  type : String
  generationDate : Option String
  metadata : ArtifactRef
  rawData : ArtifactRef
  inputData : ArtifactRef
  inputMetadata : ArtifactRef
  outputData : ArtifactRef
  outputMetadata : ArtifactRef
  siteName : String
  collaboratorName : Option String
  orcid : Option String
  accessUrl : Option String
deriving DecidableEq, Repr, Inhabited

/-- Model of `process_group` (S0 lines 54-115): hash all six members, extract the
JSON-LD metadata, assemble the descriptor and write it to
`{output_folder}/{Id}.json`.  Returns the written path, the descriptor and
the diagnostics printed by the hash helpers, or the uncaught exception. -/
def process_group (fs : FS)
    (input_data output_data raw_data metadata input_metadata output_metadata
     output_folder : String) : Except PyErr (String × Descriptor × List LogMsg) :=
  match sha256_hash fs input_data with
  | .error e => .error e
  | .ok input_data_hash =>
  let output_data_hash := (sha256_bzip2_hash fs output_data).1
  let lg1 := (sha256_bzip2_hash fs output_data).2
  let raw_data_hash := (sha256_bzip2_hash fs raw_data).1
  let lg2 := (sha256_bzip2_hash fs raw_data).2
  match sha256_hash fs metadata with
  | .error e => .error e
  | .ok metadata_hash =>
  match sha256_hash fs input_metadata with
  | .error e => .error e
  | .ok input_metadata_hash =>
  match sha256_hash fs output_metadata with
  | .error e => .error e
  | .ok output_metadata_hash =>
  match process_jsonld fs metadata with
  | .error e => .error e
  | .ok e =>
  match process_jsonld fs input_metadata with
  | .error er => .error er
  | .ok ie =>
  match process_jsonld fs output_metadata with
  | .error er => .error er
  | .ok oe =>
  match e.servesDataset with
  | none => .error .attributeError
  | some raw_loc =>
  match (pySplit raw_loc '/')[1]? with
  | none => .error .indexError
  | some root_path =>
  match e.file_id with
  | none => .error .attributeError
  | some file_id =>
  let descId := pyReplace file_id ".bz2" ""
  let d : Descriptor := {
    Id := descId
    type := e.type_data
    generationDate := e.generation_date
    metadata := { hash := some metadata_hash,
                  location := some ("/" ++ root_path ++ "/" ++ metadata) }
    rawData := { hash := raw_data_hash, location := some raw_loc }
    inputData := { hash := some input_data_hash, location := ie.servesDataset }
    inputMetadata := { hash := some input_metadata_hash,
                       location := some ("/" ++ root_path ++ "/" ++ input_metadata) }
    outputData := { hash := output_data_hash, location := oe.servesDataset }
    outputMetadata := { hash := some output_metadata_hash,
                        location := some ("/" ++ root_path ++ "/" ++ output_metadata) }
    siteName := e.site_name
    collaboratorName := none
    orcid := e.orcid
    accessUrl := e.access_url }
  .ok (osJoin output_folder (descId ++ ".json"), d, lg1 ++ lg2)

/-- Does a directory entry match the name regex of
`get_latest_metadata_file`, built as the raw pattern
`^\.{base}{pat}\..*Z$`?  Dots inside `base` and `pat` are taken literally
(the source interpolates them into the regex unescaped, where a dot matches
any character; for the literal file names handled here the two readings
agree). -/
def nameMatch (base pat f : String) : Bool :=
  strStarts f ("." ++ base ++ pat ++ ".") && strEnds f "Z"

/-- Format check for a trailing `YYYYMMDDTHHMMSS.ffffffZ` timestamp, the
group captured by the regex `.*(\d{8}T\d{6}\.\d{6}Z)$`. -/
def tsFormat (t : List Char) : Bool :=
  t.length = 23 && (t.take 8).all Char.isDigit && t[8]? == some 'T' &&
  ((t.drop 9).take 6).all Char.isDigit && t[15]? == some '.' &&
  ((t.drop 16).take 6).all Char.isDigit && t[22]? == some 'Z'

/-- The timestamp captured by `.*(\d{8}T\d{6}\.\d{6}Z)$` when the search
succeeds: the last 23 characters in well-formed position. -/
def tsOf (f : String) : Option String :=
  let cs := f.data
  let t := cs.drop (cs.length - 23)
  if tsFormat t then some (String.mk t) else none

/-- Python `max(pairs, key=lambda x: x[1])`: the first element whose key is
maximal under plain string comparison. -/
def maxBySnd : List (String × String) → Option (String × String)
  | [] => none
  | x :: xs => some (xs.foldl pyMaxStep x)

/-- Model of `get_latest_metadata_file` (S0 lines 117-134).  When no directory entry
matches the name pattern the function returns None; when entries match but
none carries a well-formed timestamp, `latest_file` is None and
`os.path.join(metadata_folder, None)` raises TypeError. -/
def get_latest_metadata_file (base metadata_folder pat : String)
    (listing : List String) : Except PyErr (Option String) :=
  let matching := listing.filter (nameMatch base pat)
  if matching.isEmpty then .ok none
  else
    let fts := (matching.filter (fun f => (tsOf f).isSome)).map
      (fun f => (f, (tsOf f).getD ""))
    match maxBySnd fts with
    | none => .error .typeError
    | some m => .ok (some (osJoin metadata_folder m.1))

/-- The `f and os.path.exists(f)` test of the completeness gate: a None
path (no metadata version found) or a missing file fails the test. -/
def memberOk (fs : FS) : Option String → Bool
  | none => false
  | some p => p != "" && pexists fs p

/-- One candidate group of `find_groups` (S0 lines 139-157), identified by
the input-folder entry ending in `.input`. -/
def groupStep (fs : FS) (metaListing : List String)
    (input_folder metadata_folder output_folder nm : String) : StepOut Descriptor :=
  let base_name := pyReplace nm ".input" ""
  let base_name_split := (pySplit base_name '-').headD ""
  let raw_data := osJoin input_folder (base_name_split ++ ".bz2")
  match get_latest_metadata_file base_name_split metadata_folder ".bz2.jsonld" metaListing with
  | .error e => { err := some e }
  | .ok metadata =>
  match get_latest_metadata_file base_name metadata_folder ".input.jsonld" metaListing with
  | .error e => { err := some e }
  | .ok input_metadata =>
  match get_latest_metadata_file base_name metadata_folder ".lst.bz2.jsonld" metaListing with
  | .error e => { err := some e }
  | .ok output_metadata =>
  let input_data := osJoin input_folder (base_name ++ ".input")
  let output_data := osJoin input_folder (base_name ++ ".lst.bz2")
  let required : List (Option String) :=
    [some input_data, some raw_data, metadata, input_metadata, some output_data, output_metadata]
  if required.all (memberOk fs) then
    match process_group fs input_data output_data raw_data (metadata.getD "")
        (input_metadata.getD "") (output_metadata.getD "") output_folder with
    | .error e => { err := some e }
    | .ok (w, d, lgs) => { writes := [(w, d)], logs := lgs ++ [.generated w] }
  else
    { logs := [.skip base_name (required.filter (fun o => !(memberOk fs o)))] }

/-- Sequential driver of `find_groups`: candidate groups are processed in
listing order until an uncaught exception aborts the run. -/
def s0Go (fs : FS) (metaListing : List String) (iF mF oF : String) :
    List String → RunResult Descriptor
  | [] => {}
  | nm :: rest =>
    let s := groupStep fs metaListing iF mF oF nm
    match s.err with
    | some e => { writes := s.writes, logs := s.logs, crash := some e }
    | none =>
      let r := s0Go fs metaListing iF mF oF rest
      { writes := s.writes ++ r.writes, logs := s.logs ++ r.logs, crash := r.crash }

/-- Model of `find_groups` (S0 lines 136-157): iterate over the `*.input` entries of
the input folder (glob does not match hidden entries). -/
def find_groups (fs : FS) (inputListing metaListing : List String)
    (input_folder metadata_folder output_folder : String) : RunResult Descriptor :=
  s0Go fs metaListing input_folder metadata_folder output_folder
    (inputListing.filter (fun nm => strEnds nm ".input" && !(strStarts nm ".")))

end S0

/-! ## The S1 script (DualStream variant)

Its `sha256_hash` and `process_jsonld` are textually identical to the S0
versions; `sha256_bzip2_hash` differs: it feeds the decompressed chunks to
the accumulator unchanged (no ASCII filtering). -/

namespace S1

/-- Model of `sha256_hash` (S1 lines 7-13): identical to the S0 definition. -/
def sha256_hash (fs : FS) (p : String) : Except PyErr String :=
  S0.sha256_hash fs p

/-- Model of `sha256_bzip2_hash` (S1 lines 15-25): bz2 read, chunks fed unchanged,
OSError caught and turned into a None result. -/
def sha256_bzip2_hash (fs : FS) (p : String) : Option String × List LogMsg :=
  match fsGet fs p with
  | none => (none, [.readError p])
  | some f =>
    if f.readable then (some (sha256hex (chunksOf 8192 f.dbytes).flatten), [])
    else (none, [.readError p])

/-- Model of `process_jsonld` (S1 lines 27-40): identical to the S0 definition. -/
def process_jsonld (fs : FS) (p : String) : Except PyErr S0.Extracted :=
  S0.process_jsonld fs p

/-- Nested primary/secondary pair of artifact references. -/
structure DualRef where
  primary : ArtifactRef
  secondary : ArtifactRef
deriving DecidableEq, Repr, Inhabited

/-- The descriptor JSON written by the S1 script. -/
structure Descriptor where
  Id : String
  type : String
  generationDate : Option String
  metadata : DualRef
  rawData : DualRef
  siteName : String
  collaboratorName : Option String
  orcid : Option String
  accessUrl : Option String
deriving DecidableEq, Repr, Inhabited

/-- Model of `process_group` (S1 lines 42-94). -/
def process_group (fs : FS)
    (primary_raw secondary_raw primary_metadata secondary_metadata
     output_folder : String) : Except PyErr (String × Descriptor × List LogMsg) :=
  let primary_raw_hash := (sha256_bzip2_hash fs primary_raw).1
  let lg1 := (sha256_bzip2_hash fs primary_raw).2
  let secondary_raw_hash := (sha256_bzip2_hash fs secondary_raw).1
  let lg2 := (sha256_bzip2_hash fs secondary_raw).2
  match sha256_hash fs primary_metadata with
  | .error e => .error e
  | .ok primary_metadata_hash =>
  match sha256_hash fs secondary_metadata with
  | .error e => .error e
  | .ok secondary_metadata_hash =>
  match process_jsonld fs primary_metadata with
  | .error e => .error e
  | .ok e =>
  match e.servesDataset with
  | none => .error .attributeError
  | some prim_loc =>
  match (pySplit prim_loc '/')[1]? with
  | none => .error .indexError
  | some root_path =>
  match process_jsonld fs secondary_metadata with
  | .error er => .error er
  | .ok se =>
  match e.file_id with
  | none => .error .attributeError
  | some file_id =>
  let descId := pyReplace file_id ".pri.bz2" ""
  let d : Descriptor := {
    Id := descId
    type := e.type_data
    generationDate := e.generation_date
    metadata := {
      primary := { hash := some primary_metadata_hash,
                   location := some ("/" ++ root_path ++ "/" ++ primary_metadata) }
      secondary := { hash := some secondary_metadata_hash,
                     location := some ("/" ++ root_path ++ "/" ++ secondary_metadata) } }
    rawData := {
      primary := { hash := primary_raw_hash, location := some prim_loc }
      secondary := { hash := secondary_raw_hash, location := se.servesDataset } }
    siteName := e.site_name
    collaboratorName := none
    orcid := e.orcid
    accessUrl := e.access_url }
  .ok (osJoin output_folder (descId ++ ".json"), d, lg1 ++ lg2)

end S1

/-! ## The L0 script (RawMeasurement variant) -/

namespace L0

/-- Model of `sha256_hash` (L0 lines 6-16): bz2 read, chunks fed unchanged, OSError
caught, logged and turned into a None result. -/
def sha256_hash (fs : FS) (p : String) : Option String × List LogMsg :=
  match fsGet fs p with
  | none => (none, [.readError p])
  | some f =>
    if f.readable then (some (sha256hex (chunksOf 8192 f.dbytes).flatten), [])
    else (none, [.readError p])

/-- Insert a key into the metadata mapping, last occurrence winning, as a
Python dict assignment does. -/
def assocUpd (m : List (String × String)) (k v : String) : List (String × String) :=
  if m.any (fun e => e.1 == k) then m.map (fun e => if e.1 == k then (k, v) else e)
  else m ++ [(k, v)]

/-- The parsing loop of `parse_mtd_file`: each line is split at its first
`=`; a line without `=` makes the tuple unpacking raise ValueError, which
the source does not catch. -/
def parseLinesAux : List (String × String) → List String →
    Except PyErr (List (String × String))
  | m, [] => .ok m
  | m, line :: rest =>
    match pySplitN line '=' 1 with
    | [k, v] => parseLinesAux (assocUpd m (pyStrip k) (pyStrip v)) rest
    | _ => .error .valueError

/-- Model of `parse_mtd_file` (L0 lines 18-29): OSError on the read is caught,
logged and turned into a None result; the ValueError from a malformed line
propagates. -/
def parse_mtd_file (fs : FS) (p : String) :
    Except PyErr (Option (List (String × String))) × List LogMsg :=
  match fsGet fs p with
  | none => (.ok none, [.readError p])
  | some f =>
    if f.readable then
      match parseLinesAux [] f.lines with
      | .ok m => (.ok (some m), [])
      | .error e => (.error e, [])
    else (.ok none, [.readError p])

/-- Python `dict.get(k, None)`. -/
def pyLookup (m : List (String × String)) (k : String) : Option String :=
  (m.find? (fun e => e.1 == k)).map (fun e => e.2)

/-- Model of `metadata.get(key, None).replace(QUOTE, "")`: strips every double
quote; when the key is absent the attribute access on None raises
AttributeError. -/
def getStripQuotes (m : List (String × String)) (k : String) : Except PyErr String :=
  match pyLookup m k with
  | none => .error .attributeError
  | some v => .ok (pyReplace v "\"" "")

/-- The descriptor JSON written by the L0 script. -/
structure Descriptor where
  Id : String
  type : String
  generationDate : String
  metadata : ArtifactRef
  rawData : ArtifactRef
  siteName : String
  collaboratorName : String
  orcid : String
deriving DecidableEq, Repr, Inhabited

/-- Process one file group of `process_files` (L0 lines 44-93). -/
def groupStep (fs : FS) (input_folder output_folder base_name : String)
    (files : List String) : StepOut Descriptor :=
  if files.length ≠ 2 then { logs := [.skipIncomplete base_name] }
  else
    let dat_file := osJoin input_folder (base_name ++ ".dat.bz2")
    let mtd_file := osJoin input_folder (base_name ++ ".mtd.bz2")
    let output_file := osJoin output_folder (base_name ++ ".json")
    let dat_hash := (sha256_hash fs dat_file).1
    let lgA := (sha256_hash fs dat_file).2
    let mtd_hash := (sha256_hash fs mtd_file).1
    let lgB := (sha256_hash fs mtd_file).2
    if dat_hash.isNone || mtd_hash.isNone then
      { logs := lgA ++ lgB ++ [.skipReadError base_name] }
    else
      let lgC := (parse_mtd_file fs mtd_file).2
      match (parse_mtd_file fs mtd_file).1 with
      | .error e => { logs := lgA ++ lgB ++ lgC, err := some e }
      | .ok none => { logs := lgA ++ lgB ++ lgC ++ [.skipMetaError base_name] }
      | .ok (some m) =>
        match getStripQuotes m "detector1Name" with
        | .error e => { logs := lgA ++ lgB ++ lgC, err := some e }
        | .ok root_path =>
          match pySplitN base_name '_' 3 with
          | [_, _, date, time] =>
            let generation_date := date ++ " " ++ pyReplace time "h" ":" ++ ":00"
            match getStripQuotes m "siteInst" with
            | .error e => { logs := lgA ++ lgB ++ lgC, err := some e }
            | .ok siteName =>
            match getStripQuotes m "siteRespName" with
            | .error e => { logs := lgA ++ lgB ++ lgC, err := some e }
            | .ok collab =>
            match getStripQuotes m "siteRespId" with
            | .error e => { logs := lgA ++ lgB ++ lgC, err := some e }
            | .ok orc =>
              let d : Descriptor := {
                Id := base_name
                type := "L0"
                generationDate := generation_date
                metadata := { hash := mtd_hash,
                              location := some ("/" ++ root_path ++ "/" ++ base_name ++ ".mtd.bz2") }
                rawData := { hash := dat_hash,
                             location := some ("/" ++ root_path ++ "/" ++ base_name ++ ".dat.bz2") }
                siteName := siteName
                collaboratorName := collab
                orcid := orc }
              { writes := [(output_file, d)],
                logs := lgA ++ lgB ++ lgC ++ [.generated output_file] }
          | _ => { logs := lgA ++ lgB ++ lgC, err := some .valueError }

/-- Does a directory entry take part in the grouping loop? -/
def l0Matches (f : String) : Bool := strEnds f ".dat.bz2" || strEnds f ".mtd.bz2"

/-- Model of `file_groups.setdefault(base, []).append(name)`: key order is first
occurrence, value order is listing order. -/
def addToGroups : List (String × List String) → String → String →
    List (String × List String)
  | [], b, f => [(b, [f])]
  | (b2, fl) :: rest, b, f =>
    if b2 = b then (b2, fl ++ [f]) :: rest
    else (b2, fl) :: addToGroups rest b f

/-- The grouping loop of `process_files` (L0 lines 37-41). -/
def buildGroups (listing : List String) : List (String × List String) :=
  listing.foldl
    (fun acc f => if l0Matches f then addToGroups acc (rsplit2head f) f else acc) []

/-- The file list recorded for a base name in a grouping accumulator. -/
def groupEntry (b : String) : List (String × List String) → List String
  | [] => []
  | (b2, fl) :: rest => if b2 = b then fl else groupEntry b rest

/-- Sequential driver over the file groups, stopping at the first uncaught
exception. -/
def l0Go (fs : FS) (iF oF : String) :
    List (String × List String) → RunResult Descriptor
  | [] => {}
  | (b, files) :: rest =>
    let s := groupStep fs iF oF b files
    match s.err with
    | some e => { writes := s.writes, logs := s.logs, crash := some e }
    | none =>
      let r := l0Go fs iF oF rest
      { writes := s.writes ++ r.writes, logs := s.logs ++ r.logs, crash := r.crash }

/-- Model of `process_files` (L0 lines 31-93): group the directory entries by base
name, then process each group in insertion order. -/
def process_files (fs : FS) (inputListing : List String)
    (input_folder output_folder : String) : RunResult Descriptor :=
  l0Go fs input_folder output_folder (buildGroups inputListing)

end L0

/-! ## Concrete example inputs

Small concrete directory trees used to witness the general theorems and to
exhibit counterexamples.  File contents are tiny synthetic byte lists; the
JSON-LD documents carry the attributes relevant to each scenario. -/

/-- Flat metadata content of the spec scenario for the L0 pipeline: only
`detector1Name` and `siteInst` are present. -/
def mtdScenario : PFile :=
  { dbytes := [4], lines := ["detector1Name=\"HALL_A\"", "siteInst=\"SiteX\""] }

/-- Flat metadata content carrying all four keys the L0 script reads. -/
def mtdFull : PFile :=
  { dbytes := [2],
    lines := ["detector1Name=\"HALL_A\"", "siteInst=\"SiteX\"",
              "siteRespName=\"Resp\"", "siteRespId=\"0000-1\""] }

/-- The C8 scenario input directory: exactly `run1.dat.bz2` and
`run1.mtd.bz2`. -/
def fsRun1 : FS :=
  [("i/run1.dat.bz2", { dbytes := [1, 2, 3] }), ("i/run1.mtd.bz2", mtdScenario)]

/-- The C8 scenario with an underscore-structured base name instead of
`run1`, and the two missing responsible-party keys added. -/
def fsGoodBase : FS :=
  [("i/x_SiteX_20240101_12h00.dat.bz2", { dbytes := [1] }),
   ("i/x_SiteX_20240101_12h00.mtd.bz2", mtdFull)]

/-- A graph node exposing only `accessURL`. -/
def nodeAU : JNode := { accessURL := some "http://a" }

/-- A graph node exposing only `servesDataset`. -/
def nodeSD : JNode := { servesDataset := some "/root1/file" }

/-- A graph node exposing only `prov:endedAtTime`. -/
def nodeET : JNode := { endedAtTime := some "2024-01-01T00:00:00" }

/-- A complete JSON-LD document for the raw-data metadata of an S0 group. -/
def docMain : JsonLD :=
  { creatorId := some "orcid1", title := some "S0_siteA_whatever",
    graph := some [nodeAU, nodeSD, nodeET] }

def nodeSDIn : JNode := { servesDataset := some "/root1/in" }

/-- A complete JSON-LD document for the input metadata of an S0 group. -/
def docIn : JsonLD :=
  { creatorId := some "orcid1", title := some "S0_siteA_in",
    graph := some [nodeAU, nodeSDIn, nodeET] }

def nodeSDOut : JNode := { servesDataset := some "/root1/out" }

/-- A complete JSON-LD document for the output metadata of an S0 group. -/
def docOut : JsonLD :=
  { creatorId := some "orcid1", title := some "S0_siteA_out",
    graph := some [nodeAU, nodeSDOut, nodeET] }

/-- A JSON-LD document whose graph has a node with `accessURL` but no node
with `servesDataset`. -/
def docNoServes : JsonLD :=
  { creatorId := some "orcid1", title := some "S0_siteA_x",
    graph := some [nodeAU, nodeET] }

/-- A JSON-LD document whose graph array is empty: no node exposes any of
the three scanned attributes. -/
def docEmptyGraph : JsonLD :=
  { creatorId := some "orcid1", title := some "S0_siteA_y", graph := some [] }

/-- Timestamped metadata entries for the group `mybase`. -/
def entReg1 : String := ".mybase.bz2.jsonld.20240101T000000.000000Z"

def entReg2 : String := ".mybase.input.jsonld.20240101T000000.000000Z"

def entReg3 : String := ".mybase.lst.bz2.jsonld.20240101T000000.000000Z"

/-- A complete S0 group on disk: one `.input` candidate with raw data,
output data and three timestamped metadata documents. -/
def fsS0Full : FS :=
  [("i/mybase.input", { bytes := [10] }),
   ("i/mybase.bz2", { dbytes := [65, 255, 66] }),
   ("i/mybase.lst.bz2", { dbytes := [66] }),
   ("m/" ++ entReg1, { bytes := [1], doc := some docMain }),
   ("m/" ++ entReg2, { bytes := [2], doc := some docIn }),
   ("m/" ++ entReg3, { bytes := [3], doc := some docOut })]

/-- The successful S0 run over `fsS0Full`. -/
def runS0Full : RunResult S0.Descriptor :=
  S0.find_groups fsS0Full ["mybase.input"] [entReg1, entReg2, entReg3] "i" "m" "o"

/-- An S0 candidate group whose raw-data member is absent. -/
def fsS0Missing : FS := [("i/mybase.input", { bytes := [10] })]

/-- The run over `fsS0Missing` with a metadata entry that matches the name
pattern but carries no well-formed timestamp. -/
def runS0BadMeta : RunResult S0.Descriptor :=
  S0.find_groups fsS0Missing ["mybase.input"] [".mybase.bz2.jsonld.vZ"] "i" "m" "o"

/-- The run over `fsS0Missing` with well-formed metadata entries. -/
def runS0Skip : RunResult S0.Descriptor :=
  S0.find_groups fsS0Missing ["mybase.input"] [entReg1, entReg2, entReg3] "i" "m" "o"

/-- An L0 input directory holding one group with a crashing base name and
one healthy group. -/
def fsTwoGroups : FS :=
  [("i/run1.dat.bz2", { dbytes := [1] }), ("i/run1.mtd.bz2", mtdScenario),
   ("i/x_SiteX_20240101_12h00.dat.bz2", { dbytes := [1] }),
   ("i/x_SiteX_20240101_12h00.mtd.bz2", mtdFull)]

/-- One listing order of `fsTwoGroups`: the crashing group comes first. -/
def listingCrashFirst : List String :=
  ["run1.dat.bz2", "run1.mtd.bz2",
   "x_SiteX_20240101_12h00.dat.bz2", "x_SiteX_20240101_12h00.mtd.bz2"]

/-- The reversed listing: the healthy group comes first. -/
def listingHealthyFirst : List String := listingCrashFirst.reverse

/-- A primary-stream JSON-LD document for an S1 group, whose title carries
the full `.pri.bz2` archive name. -/
def docS1Pri : JsonLD :=
  { creatorId := some "orcid2", title := some "S1_siteB_x.pri.bz2",
    graph := some [nodeAU, nodeSD, nodeET] }

/-- A secondary-stream JSON-LD document for an S1 group. -/
def docS1Sec : JsonLD :=
  { creatorId := some "orcid2", title := some "S1_siteB_xs",
    graph := some [nodeAU, nodeSDIn, nodeET] }

/-- A complete S1 group on disk. -/
def fsS1Full : FS :=
  [("i/dual.pri.bz2", { dbytes := [7] }),
   ("i/dual.sec.bz2", { dbytes := [8] }),
   ("m/.dual.pri.bz2.jsonld", { bytes := [1], doc := some docS1Pri }),
   ("m/.dual.sec.bz2.jsonld", { bytes := [2], doc := some docS1Sec })]

/-- Flat metadata whose second line has no equals sign: `line.split` yields
a single part and the tuple unpacking raises ValueError. -/
def mtdBadLine : PFile :=
  { dbytes := [9], lines := ["detector1Name=\"HALL_A\"", "corruptline"] }

/-- An L0 input directory with a group whose metadata has a malformed line,
followed by a healthy complete group. -/
def fsParseCrash : FS :=
  [("i/a_b_c_d.dat.bz2", { dbytes := [5] }),
   ("i/a_b_c_d.mtd.bz2", mtdBadLine),
   ("i/x_SiteX_20240101_12h00.dat.bz2", { dbytes := [1] }),
   ("i/x_SiteX_20240101_12h00.mtd.bz2", mtdFull)]

/-- An S0 group whose raw-data metadata document lacks servesDataset but
has accessURL (the C4 scenario). -/
def fsNoServes : FS :=
  [("i/mybase.input", { bytes := [10] }),
   ("i/mybase.bz2", { dbytes := [65] }),
   ("i/mybase.lst.bz2", { dbytes := [66] }),
   ("m/ma", { bytes := [1], doc := some docNoServes }),
   ("m/mb", { bytes := [2], doc := some docIn }),
   ("m/mc", { bytes := [3], doc := some docOut })]

/-! ## Claim theorems -/

/-! ### Helper lemmas about the string order and chunked reading -/

theorem chLt_irrefl : ∀ a : List Char, chLt a a = false
  | [] => rfl
  | c :: cs => by simp [chLt, chLt_irrefl cs]

theorem chLt_asymm : ∀ a b : List Char, chLt a b = true → chLt b a = false := by
  intro a
  induction a with
  | nil =>
    intro b hab
    cases b with
    | nil => simp [chLt] at hab
    | cons y ys => simp [chLt]
  | cons x xs ih =>
    intro b hab
    cases b with
    | nil => simp [chLt] at hab
    | cons y ys =>
      simp only [chLt] at hab ⊢
      by_cases hxy : x.toNat < y.toNat
      · have h1 : ¬ y.toNat < x.toNat := by omega
        simp [h1, hxy]
      · simp only [if_neg hxy] at hab
        by_cases hyx : y.toNat < x.toNat
        · simp [hyx] at hab
        · simp only [if_neg hyx] at hab
          simp only [if_neg hyx, if_neg hxy]
          exact ih ys hab

theorem chLt_lt_of_lt_of_not_lt :
    ∀ a b c : List Char, chLt a b = true → chLt c b = false → chLt a c = true := by
  intro a
  induction a with
  | nil =>
    intro b c hab hcb
    cases b with
    | nil => simp [chLt] at hab
    | cons y ys =>
      cases c with
      | nil => simp [chLt] at hcb
      | cons z zs => simp [chLt]
  | cons x xs ih =>
    intro b c hab hcb
    cases b with
    | nil => simp [chLt] at hab
    | cons y ys =>
      cases c with
      | nil => simp [chLt] at hcb
      | cons z zs =>
        simp only [chLt] at hab hcb ⊢
        by_cases hxy : x.toNat < y.toNat
        · by_cases hzy : z.toNat < y.toNat
          · simp only [if_pos hzy] at hcb
            exact absurd hcb (by simp)
          · have hxz : x.toNat < z.toNat := by omega
            simp [hxz]
        · simp only [if_neg hxy] at hab
          by_cases hyx : y.toNat < x.toNat
          · simp [hyx] at hab
          · simp only [if_neg hyx] at hab
            by_cases hzy : z.toNat < y.toNat
            · simp only [if_pos hzy] at hcb
              exact absurd hcb (by simp)
            · simp only [if_neg hzy] at hcb
              by_cases hyz : y.toNat < z.toNat
              · have : x.toNat < z.toNat := by omega
                simp [this]
              · have h1 : ¬ x.toNat < z.toNat := by omega
                have h2 : ¬ z.toNat < x.toNat := by omega
                simp only [if_neg h1, if_neg h2]
                simp only [if_neg hyz] at hcb
                exact ih ys zs hab hcb

theorem chunksOfAux_flatten {α : Type} (n : Nat) (hn : 0 < n) :
    ∀ (fuel : Nat) (l : List α), l.length ≤ fuel →
      (chunksOfAux n fuel l).flatten = l := by
  intro fuel
  induction fuel with
  | zero =>
    intro l hl
    have : l = [] := List.eq_nil_of_length_eq_zero (Nat.le_zero.mp hl)
    subst this
    simp [chunksOfAux]
  | succ f ih =>
    intro l hl
    cases l with
    | nil => simp [chunksOfAux]
    | cons c cs =>
      have hne : n ≠ 0 := Nat.pos_iff_ne_zero.mp hn
      have hd : ((c :: cs).drop n).length ≤ f := by
        simp only [List.length_drop, List.length_cons]
        simp only [List.length_cons] at hl
        omega
      rw [chunksOfAux, if_neg hne, List.flatten_cons, ih _ hd, List.take_append_drop]

theorem chunksOf_flatten {α : Type} (n : Nat) (hn : 0 < n) (l : List α) :
    (chunksOf n l).flatten = l :=
  chunksOfAux_flatten n hn l.length l (le_refl _)

theorem flatten_map_filter (p : Nat → Bool) (L : List (List Nat)) :
    (L.map (List.filter p)).flatten = L.flatten.filter p := by
  induction L with
  | nil => simp
  | cons h t ih =>
    rw [List.map_cons, List.flatten_cons, List.flatten_cons, List.filter_append, ih]


theorem asciiChunks_flatten (csz : Nat) (hc : 0 < csz) (B : List Nat) :
    ((chunksOf csz B).map asciiChunk).flatten = B.filter (fun b => b < 128) := by
  show ((chunksOf csz B).map (List.filter (fun b => b < 128))).flatten = _
  rw [flatten_map_filter, chunksOf_flatten csz hc]

/-- Claim C5: for every bz2-compressed file whose decompressed content is
the byte sequence B, hashing in DecompressedAsciiFiltered mode returns the
hex SHA-256 digest of B with every byte of value at least 0x80 removed, the
fed byte stream does not depend on how the decompressed stream is cut into
chunks, and the decompressed bytes [0x41, 0xFF, 0x42] hash exactly as
[0x41, 0x42]. -/
theorem c5_ascii_filtered_hash (B : List Nat) (csz csz2 : Nat)
    (hc : 0 < csz) (hc2 : 0 < csz2) :
    S0.sha256_bzip2_hash_stream B csz = sha256hex (B.filter (fun b => b < 128)) ∧
    (∀ chunks : List (List Nat), chunks.flatten = B →
      (chunks.map asciiChunk).flatten = B.filter (fun b => b < 128)) ∧
    S0.sha256_bzip2_hash_stream [0x41, 0xFF, 0x42] csz =
      S0.sha256_bzip2_hash_stream [0x41, 0x42] csz2 := by
  refine ⟨?_, ?_, ?_⟩
  · show sha256hex ((chunksOf csz B).map asciiChunk).flatten = _
    rw [asciiChunks_flatten csz hc]
  · intro chunks hch
    show ((chunks.map (List.filter (fun b => b < 128))).flatten) = _
    rw [flatten_map_filter, hch]
  · show sha256hex ((chunksOf csz [0x41, 0xFF, 0x42]).map asciiChunk).flatten =
      sha256hex ((chunksOf csz2 [0x41, 0x42]).map asciiChunk).flatten
    rw [asciiChunks_flatten csz hc, asciiChunks_flatten csz2 hc2]
    have hfil : List.filter (fun b => decide (b < 128)) [65, 255, 66] =
        List.filter (fun b => decide (b < 128)) [65, 66] := by decide
    rw [hfil]

/-- Witness for C5 at the concrete chunk sizes 8192 and 4096. -/
theorem c5_witness :
    S0.sha256_bzip2_hash_stream [0x41, 0xFF, 0x42] 8192 =
      S0.sha256_bzip2_hash_stream [0x41, 0x42] 4096 :=
  (c5_ascii_filtered_hash [0x41, 0xFF, 0x42] 8192 4096 (by decide) (by decide)).2.2

theorem foldlMax_spec :
    ∀ (xs : List (String × String)) (x : String × String),
      (xs.foldl pyMaxStep x = x ∨ xs.foldl pyMaxStep x ∈ xs) ∧
      pyStrLt (xs.foldl pyMaxStep x).2 x.2 = false ∧
      ∀ y ∈ xs, pyStrLt (xs.foldl pyMaxStep x).2 y.2 = false := by
  intro xs
  induction xs with
  | nil =>
    intro x
    refine ⟨Or.inl rfl, ?_, by simp⟩
    exact chLt_irrefl x.2.data
  | cons z zs ih =>
    intro x
    simp only [List.foldl_cons]
    by_cases hxz : pyStrLt x.2 z.2 = true
    · have hz : pyMaxStep x z = z := by simp [pyMaxStep, hxz]
      rw [hz]
      obtain ⟨hmem, hstep, hall⟩ := ih z
      refine ⟨?_, ?_, ?_⟩
      · rcases hmem with h | h
        · right
          rw [h]
          exact List.mem_cons_self z zs
        · right
          exact List.mem_cons_of_mem z h
      · cases hmx : pyStrLt (zs.foldl pyMaxStep z).2 x.2 with
        | false => rfl
        | true =>
          exfalso
          have h1 : chLt z.2.data x.2.data = false := chLt_asymm _ _ hxz
          have h2 : chLt (zs.foldl pyMaxStep z).2.data z.2.data = true :=
            chLt_lt_of_lt_of_not_lt _ _ _ hmx h1
          have hstep2 : chLt (zs.foldl pyMaxStep z).2.data z.2.data = false := hstep
          exact Bool.false_ne_true (hstep2.symm.trans h2)
      · intro y hy
        rcases List.mem_cons.mp hy with h | h
        · subst h
          exact hstep
        · exact hall y h
    · have hx2 : pyMaxStep x z = x := by simp [pyMaxStep, hxz]
      rw [hx2]
      obtain ⟨hmem, hstep, hall⟩ := ih x
      refine ⟨?_, ?_, ?_⟩
      · rcases hmem with h | h
        · left
          exact h
        · right
          exact List.mem_cons_of_mem z h
      · exact hstep
      · intro y hy
        rcases List.mem_cons.mp hy with h | h
        · subst h
          cases hmy : pyStrLt (zs.foldl pyMaxStep x).2 y.2 with
          | false => rfl
          | true =>
            exfalso
            have hxzf : chLt x.2.data y.2.data = false := by
              cases hq : pyStrLt x.2 y.2 with
              | false => exact hq
              | true => exact absurd hq hxz
            have h2 : chLt (zs.foldl pyMaxStep x).2.data x.2.data = true :=
              chLt_lt_of_lt_of_not_lt _ _ _ hmy hxzf
            have hstep2 : chLt (zs.foldl pyMaxStep x).2.data x.2.data = false := hstep
            exact Bool.false_ne_true (hstep2.symm.trans h2)
        · exact hall y h

theorem maxBySnd_spec (l : List (String × String)) (hne : l ≠ []) :
    ∃ m, S0.maxBySnd l = some m ∧ m ∈ l ∧ ∀ y ∈ l, pyStrLt m.2 y.2 = false := by
  cases l with
  | nil => exact absurd rfl hne
  | cons x xs =>
    obtain ⟨hmem, hx, hall⟩ := foldlMax_spec xs x
    refine ⟨xs.foldl pyMaxStep x, rfl, ?_, ?_⟩
    · rcases hmem with h | h
      · rw [h]
        exact List.mem_cons_self x xs
      · exact List.mem_cons_of_mem x h
    · intro y hy
      rcases List.mem_cons.mp hy with h | h
      · subst h
        exact hx
      · exact hall y h

theorem maxBySnd_eq_none_iff (l : List (String × String)) :
    S0.maxBySnd l = none ↔ l = [] := by
  cases l <;> simp [S0.maxBySnd]

theorem get_latest_eq_none (base folder pat : String) (listing : List String)
    (hM : listing.filter (S0.nameMatch base pat) = []) :
    S0.get_latest_metadata_file base folder pat listing = .ok none := by
  unfold S0.get_latest_metadata_file
  simp [hM]

theorem get_latest_eq_error (base folder pat : String) (listing : List String)
    (hne : listing.filter (S0.nameMatch base pat) ≠ [])
    (hT : (listing.filter (S0.nameMatch base pat)).filter
        (fun f => (S0.tsOf f).isSome) = []) :
    S0.get_latest_metadata_file base folder pat listing = .error .typeError := by
  unfold S0.get_latest_metadata_file
  have hMe : (listing.filter (S0.nameMatch base pat)).isEmpty = false := by
    cases hq : listing.filter (S0.nameMatch base pat) with
    | nil => exact absurd hq hne
    | cons a l => simp
  rw [if_neg (by simp [hMe])]
  rw [hT]
  rfl

theorem get_latest_eq_max (base folder pat : String) (listing : List String)
    (m : String × String)
    (hne : listing.filter (S0.nameMatch base pat) ≠ [])
    (hmax : S0.maxBySnd (((listing.filter (S0.nameMatch base pat)).filter
        (fun f => (S0.tsOf f).isSome)).map (fun f => (f, (S0.tsOf f).getD ""))) = some m) :
    S0.get_latest_metadata_file base folder pat listing =
      .ok (some (osJoin folder m.1)) := by
  unfold S0.get_latest_metadata_file
  have hMe : (listing.filter (S0.nameMatch base pat)).isEmpty = false := by
    cases hq : listing.filter (S0.nameMatch base pat) with
    | nil => exact absurd hq hne
    | cons a l => simp
  rw [if_neg (by simp [hMe])]
  show (match S0.maxBySnd (((listing.filter (S0.nameMatch base pat)).filter
      (fun f => (S0.tsOf f).isSome)).map (fun f => (f, (S0.tsOf f).getD ""))) with
    | none => Except.error PyErr.typeError
    | some q => Except.ok (some (osJoin folder q.1))) =
      Except.ok (some (osJoin folder m.1))
  rw [hmax]

/-- Claim C10: get_latest_metadata_file returns None exactly when zero
directory entries match the name pattern; when at least one entry matches
the name pattern but none carries a well-formed timestamp it raises an
error (joining None into a path) instead of returning None; and its result
is a path exactly when some matching entry carries a well-formed
timestamp. -/
theorem c10_resolve_latest_totality (base folder pat : String) (listing : List String) :
    (S0.get_latest_metadata_file base folder pat listing = .ok none ↔
      ∀ f ∈ listing, S0.nameMatch base pat f = false) ∧
    ((∃ e, S0.get_latest_metadata_file base folder pat listing = .error e) ↔
      ((∃ f ∈ listing, S0.nameMatch base pat f = true) ∧
        ∀ f ∈ listing, S0.nameMatch base pat f = true → S0.tsOf f = none)) ∧
    ((∃ p, S0.get_latest_metadata_file base folder pat listing = .ok (some p)) ↔
      ∃ f ∈ listing, S0.nameMatch base pat f = true ∧ (S0.tsOf f).isSome = true) := by
  by_cases hM : listing.filter (S0.nameMatch base pat) = []
  · have hres := get_latest_eq_none base folder pat listing hM
    have hall : ∀ f ∈ listing, S0.nameMatch base pat f = false := by
      intro f hf
      cases hc : S0.nameMatch base pat f with
      | false => rfl
      | true =>
        exfalso
        have : f ∈ listing.filter (S0.nameMatch base pat) :=
          List.mem_filter.mpr ⟨hf, hc⟩
        rw [hM] at this
        exact absurd this (List.not_mem_nil f)
    refine ⟨⟨fun _ => hall, fun _ => hres⟩, ?_, ?_⟩
    · constructor
      · rintro ⟨e, he⟩
        rw [hres] at he
        exact absurd he (by simp)
      · rintro ⟨⟨f, hf, hm⟩, _⟩
        rw [hall f hf] at hm
        exact absurd hm (by simp)
    · constructor
      · rintro ⟨p, hp⟩
        rw [hres] at hp
        simp at hp
      · rintro ⟨f, hf, hm, _⟩
        rw [hall f hf] at hm
        exact absurd hm (by simp)
  · have hone : ∃ f ∈ listing, S0.nameMatch base pat f = true := by
      cases hq : listing.filter (S0.nameMatch base pat) with
      | nil => exact absurd hq hM
      | cons a l =>
        have ha : a ∈ listing.filter (S0.nameMatch base pat) := by
          rw [hq]
          exact List.mem_cons_self a l
        exact ⟨a, (List.mem_filter.mp ha).1, (List.mem_filter.mp ha).2⟩
    by_cases hT : (listing.filter (S0.nameMatch base pat)).filter
        (fun f => (S0.tsOf f).isSome) = []
    · have hres := get_latest_eq_error base folder pat listing hM hT
      have hnots : ∀ f ∈ listing, S0.nameMatch base pat f = true → S0.tsOf f = none := by
        intro f hf hm
        cases hs : S0.tsOf f with
        | none => rfl
        | some t =>
          exfalso
          have : f ∈ (listing.filter (S0.nameMatch base pat)).filter
              (fun f => (S0.tsOf f).isSome) :=
            List.mem_filter.mpr ⟨List.mem_filter.mpr ⟨hf, hm⟩, by simp [hs]⟩
          rw [hT] at this
          exact absurd this (List.not_mem_nil f)
      refine ⟨?_, ⟨fun _ => ⟨hone, hnots⟩, fun _ => ⟨.typeError, hres⟩⟩, ?_⟩
      · constructor
        · intro h
          rw [hres] at h
          exact absurd h (by simp)
        · intro h
          obtain ⟨f, hf, hm⟩ := hone
          rw [h f hf] at hm
          exact absurd hm (by simp)
      · constructor
        · rintro ⟨p, hp⟩
          rw [hres] at hp
          exact absurd hp (by simp)
        · rintro ⟨f, hf, hm, hs⟩
          rw [hnots f hf hm] at hs
          exact absurd hs (by simp)
    · obtain ⟨m, hmax, hmem, _⟩ := maxBySnd_spec
        (((listing.filter (S0.nameMatch base pat)).filter
          (fun f => (S0.tsOf f).isSome)).map (fun f => (f, (S0.tsOf f).getD ""))) (by
            intro hmapnil
            exact hT (List.map_eq_nil_iff.mp hmapnil))
      have hres := get_latest_eq_max base folder pat listing m hM hmax
      obtain ⟨b, hbmem, hbeq⟩ := List.mem_map.mp hmem
      have hb1 : b ∈ listing := (List.mem_filter.mp (List.mem_filter.mp hbmem).1).1
      have hb2 : S0.nameMatch base pat b = true :=
        (List.mem_filter.mp (List.mem_filter.mp hbmem).1).2
      have hb3 : (S0.tsOf b).isSome = true := by
        have := (List.mem_filter.mp hbmem).2
        simpa using this
      refine ⟨?_, ?_, ⟨fun _ => ⟨b, hb1, hb2, hb3⟩, fun _ => ⟨osJoin folder m.1, hres⟩⟩⟩
      · constructor
        · intro h
          rw [hres] at h
          exact absurd h (by simp)
        · intro h
          obtain ⟨f, hf, hm2⟩ := hone
          rw [h f hf] at hm2
          exact absurd hm2 (by simp)
      · constructor
        · rintro ⟨e, he⟩
          rw [hres] at he
          exact absurd he (by simp)
        · rintro ⟨_, hnots⟩
          rw [hnots b hb1 hb2] at hb3
          exact absurd hb3 (by simp)

/-- Claim C6: whenever some directory entry matches the name pattern and
carries a well-formed timestamp, get_latest_metadata_file returns the path
of a matching entry whose trailing timestamp is maximal under plain string
comparison; and it returns None, not an error, when zero entries match. -/
theorem c6_version_selection (base folder pat : String) (listing : List String)
    (g : String) (hg : g ∈ listing) (hgm : S0.nameMatch base pat g = true)
    (hgt : (S0.tsOf g).isSome = true) :
    (∃ best ∈ listing, S0.nameMatch base pat best = true ∧
      (S0.tsOf best).isSome = true ∧
      S0.get_latest_metadata_file base folder pat listing =
        .ok (some (osJoin folder best)) ∧
      ∀ f ∈ listing, S0.nameMatch base pat f = true → (S0.tsOf f).isSome = true →
        pyStrLt ((S0.tsOf best).getD "") ((S0.tsOf f).getD "") = false) ∧
    (∀ l2 : List String, (∀ f ∈ l2, S0.nameMatch base pat f = false) →
      S0.get_latest_metadata_file base folder pat l2 = .ok none) := by
  constructor
  · have hgf : g ∈ (listing.filter (S0.nameMatch base pat)).filter
        (fun f => (S0.tsOf f).isSome) :=
      List.mem_filter.mpr ⟨List.mem_filter.mpr ⟨hg, hgm⟩, by simpa using hgt⟩
    have hM : listing.filter (S0.nameMatch base pat) ≠ [] := by
      intro h
      have := (List.mem_filter.mp hgf).1
      rw [h] at this
      exact absurd this (List.not_mem_nil g)
    have hftsne : ((listing.filter (S0.nameMatch base pat)).filter
        (fun f => (S0.tsOf f).isSome)).map (fun f => (f, (S0.tsOf f).getD "")) ≠ [] := by
      intro h
      have h2 := List.map_eq_nil_iff.mp h
      rw [h2] at hgf
      exact absurd hgf (List.not_mem_nil g)
    obtain ⟨m, hmax, hmem, hbound⟩ := maxBySnd_spec _ hftsne
    have hres := get_latest_eq_max base folder pat listing m hM hmax
    obtain ⟨b, hbmem, hbeq⟩ := List.mem_map.mp hmem
    refine ⟨b, (List.mem_filter.mp (List.mem_filter.mp hbmem).1).1,
      (List.mem_filter.mp (List.mem_filter.mp hbmem).1).2,
      (by simpa using (List.mem_filter.mp hbmem).2), ?_, ?_⟩
    · rw [hres]
      have hm1 : m.1 = b := by rw [← hbeq]
      rw [hm1]
    · intro f hf hm ht
      have hfin : (f, (S0.tsOf f).getD "") ∈
          ((listing.filter (S0.nameMatch base pat)).filter
            (fun f => (S0.tsOf f).isSome)).map (fun f => (f, (S0.tsOf f).getD "")) :=
        List.mem_map.mpr ⟨f, List.mem_filter.mpr
          ⟨List.mem_filter.mpr ⟨hf, hm⟩, by simpa using ht⟩, rfl⟩
      have hb := hbound _ hfin
      have hm2 : m.2 = (S0.tsOf b).getD "" := by rw [← hbeq]
      rw [hm2] at hb
      exact hb
  · intro l2 h2
    apply get_latest_eq_none
    rw [List.filter_eq_nil_iff]
    intro a ha
    simp [h2 a ha]

/-- Witness for C6: with the two spec entries present, the one carrying the
later timestamp is selected. -/
theorem c6_witness :
    S0.get_latest_metadata_file "X" "m" ".suffix"
      [".X.suffix.20240101T000000.000000Z", ".X.suffix.20240102T000000.000000Z"] =
      .ok (some "m/.X.suffix.20240102T000000.000000Z") := by
  obtain ⟨⟨best, hbl, _, _, heq, hbd⟩, _⟩ :=
    c6_version_selection "X" "m" ".suffix"
      [".X.suffix.20240101T000000.000000Z", ".X.suffix.20240102T000000.000000Z"]
      ".X.suffix.20240101T000000.000000Z" (by decide) (by decide) (by decide)
  have hb2 := hbd ".X.suffix.20240102T000000.000000Z" (by decide) (by decide) (by decide)
  rcases List.mem_cons.mp hbl with h | h
  · exfalso
    subst h
    revert hb2
    decide
  · rcases List.mem_cons.mp h with h2 | h2
    · subst h2
      rw [heq]
      rfl
    · exact absurd h2 (List.not_mem_nil _)

theorem l0Go_cons_ok (fs : FS) (iF oF b : String) (files : List String)
    (rest : List (String × List String))
    (h : (L0.groupStep fs iF oF b files).err = none) :
    L0.l0Go fs iF oF ((b, files) :: rest) =
      { writes := (L0.groupStep fs iF oF b files).writes ++ (L0.l0Go fs iF oF rest).writes,
        logs := (L0.groupStep fs iF oF b files).logs ++ (L0.l0Go fs iF oF rest).logs,
        crash := (L0.l0Go fs iF oF rest).crash } := by
  conv_lhs => rw [L0.l0Go]
  rw [h]

theorem l0Go_cons_err (fs : FS) (iF oF b : String) (files : List String)
    (rest : List (String × List String)) (e : PyErr)
    (h : (L0.groupStep fs iF oF b files).err = some e) :
    L0.l0Go fs iF oF ((b, files) :: rest) =
      { writes := (L0.groupStep fs iF oF b files).writes,
        logs := (L0.groupStep fs iF oF b files).logs,
        crash := some e } := by
  conv_lhs => rw [L0.l0Go]
  rw [h]

theorem s0Go_cons_ok (fs : FS) (metaListing : List String) (iF mF oF nm : String)
    (rest : List String)
    (h : (S0.groupStep fs metaListing iF mF oF nm).err = none) :
    S0.s0Go fs metaListing iF mF oF (nm :: rest) =
      { writes := (S0.groupStep fs metaListing iF mF oF nm).writes ++
          (S0.s0Go fs metaListing iF mF oF rest).writes,
        logs := (S0.groupStep fs metaListing iF mF oF nm).logs ++
          (S0.s0Go fs metaListing iF mF oF rest).logs,
        crash := (S0.s0Go fs metaListing iF mF oF rest).crash } := by
  conv_lhs => rw [S0.s0Go]
  rw [h]

theorem s0Go_cons_err (fs : FS) (metaListing : List String) (iF mF oF nm : String)
    (rest : List String) (e : PyErr)
    (h : (S0.groupStep fs metaListing iF mF oF nm).err = some e) :
    S0.s0Go fs metaListing iF mF oF (nm :: rest) =
      { writes := (S0.groupStep fs metaListing iF mF oF nm).writes,
        logs := (S0.groupStep fs metaListing iF mF oF nm).logs,
        crash := some e } := by
  conv_lhs => rw [S0.s0Go]
  rw [h]

/-- Counterexample to claim C1: a parse error in one group is not caught.
The group `a_b_c_d` has a metadata line without an equals sign; the
resulting ValueError aborts the whole run, and the healthy complete group
`x_SiteX_20240101_12h00` that follows it is never processed, so no
descriptor at all is written. -/
theorem c1_counterexample :
    (L0.process_files fsParseCrash
      ["a_b_c_d.dat.bz2", "a_b_c_d.mtd.bz2",
       "x_SiteX_20240101_12h00.dat.bz2", "x_SiteX_20240101_12h00.mtd.bz2"]
      "i" "o").crash = some PyErr.valueError ∧
    (L0.process_files fsParseCrash
      ["a_b_c_d.dat.bz2", "a_b_c_d.mtd.bz2",
       "x_SiteX_20240101_12h00.dat.bz2", "x_SiteX_20240101_12h00.mtd.bz2"]
      "i" "o").writes = [] ∧
    (L0.groupStep fsParseCrash "i" "o" "x_SiteX_20240101_12h00"
      ["x_SiteX_20240101_12h00.dat.bz2", "x_SiteX_20240101_12h00.mtd.bz2"]).writes.map
        (fun w => w.1) = ["o/x_SiteX_20240101_12h00.json"] :=
  ⟨rfl, rfl, rfl⟩

/-- Claim C1 (amended): in the L0 pipeline a read error while hashing a
member file is caught and logged, the group is skipped with no descriptor
written and no uncaught exception, and the run continues with the remaining
groups unchanged.  Parse errors in the flat metadata and missing mandatory
fields are, by contrast, not caught and terminate the run (see the
counterexample). -/
theorem c1_errors_caught_amended (fs : FS) (iF oF b : String) (files : List String)
    (rest : List (String × List String))
    (h2 : files.length = 2)
    (hread : (L0.sha256_hash fs (osJoin iF (b ++ ".dat.bz2"))).1 = none ∨
             (L0.sha256_hash fs (osJoin iF (b ++ ".mtd.bz2"))).1 = none) :
    (L0.groupStep fs iF oF b files).writes = [] ∧
    (L0.groupStep fs iF oF b files).err = none ∧
    LogMsg.skipReadError b ∈ (L0.groupStep fs iF oF b files).logs ∧
    (L0.l0Go fs iF oF ((b, files) :: rest)).writes =
      (L0.l0Go fs iF oF rest).writes ∧
    (L0.l0Go fs iF oF ((b, files) :: rest)).crash =
      (L0.l0Go fs iF oF rest).crash := by
  rcases hq1 : L0.sha256_hash fs (osJoin iF (b ++ ".dat.bz2")) with ⟨dh, lga⟩
  rcases hq2 : L0.sha256_hash fs (osJoin iF (b ++ ".mtd.bz2")) with ⟨mh, lgb⟩
  rw [hq1, hq2] at hread
  have hcond : (dh.isNone || mh.isNone) = true := by
    rcases hread with h | h <;> simp at h <;> simp [h]
  have hstep : L0.groupStep fs iF oF b files =
      { writes := [], logs := lga ++ lgb ++ [.skipReadError b], err := none } := by
    unfold L0.groupStep
    rw [if_neg (by simp [h2])]
    simp only [hq1, hq2]
    simp [hcond]
  have hrun := l0Go_cons_ok fs iF oF b files rest (by rw [hstep])
  rw [hrun, hstep]
  refine ⟨rfl, rfl, by simp, by simp, rfl⟩

/-- Witness for C1 (amended) at a concrete input: the dat member of the
pair is absent from the directory, so its hash read fails. -/
theorem c1_witness :
    (L0.groupStep [("i/w.mtd.bz2", { dbytes := [1] })] "i" "o" "w"
      ["w.dat.bz2", "w.mtd.bz2"]).writes = [] ∧
    (L0.groupStep [("i/w.mtd.bz2", { dbytes := [1] })] "i" "o" "w"
      ["w.dat.bz2", "w.mtd.bz2"]).err = none ∧
    LogMsg.skipReadError "w" ∈
      (L0.groupStep [("i/w.mtd.bz2", { dbytes := [1] })] "i" "o" "w"
        ["w.dat.bz2", "w.mtd.bz2"]).logs ∧
    (L0.l0Go [("i/w.mtd.bz2", { dbytes := [1] })] "i" "o"
      [("w", ["w.dat.bz2", "w.mtd.bz2"])]).writes =
      (L0.l0Go [("i/w.mtd.bz2", { dbytes := [1] })] "i" "o" []).writes ∧
    (L0.l0Go [("i/w.mtd.bz2", { dbytes := [1] })] "i" "o"
      [("w", ["w.dat.bz2", "w.mtd.bz2"])]).crash =
      (L0.l0Go [("i/w.mtd.bz2", { dbytes := [1] })] "i" "o" []).crash :=
  c1_errors_caught_amended [("i/w.mtd.bz2", { dbytes := [1] })] "i" "o" "w"
    ["w.dat.bz2", "w.mtd.bz2"] [] (by decide) (Or.inl (by rfl))

/-- Counterexample to claim C8: on exactly the input the claim describes
(`run1.dat.bz2`, `run1.mtd.bz2`, flat metadata with quoted detector and
site values), the L0 pipeline writes nothing at all - unpacking
`base_name.split` into four underscore-separated parts raises ValueError
because `run1` has no underscores - instead of producing `run1.json`. -/
theorem c8_counterexample :
    (L0.process_files fsRun1 ["run1.dat.bz2", "run1.mtd.bz2"] "i" "o").writes = [] ∧
    (L0.process_files fsRun1 ["run1.dat.bz2", "run1.mtd.bz2"] "i" "o").crash =
      some PyErr.valueError :=
  ⟨rfl, rfl⟩

/-- Claim C8 (amended): the scenario goes through once the base name has
the underscore structure the script requires and the flat metadata also
carries the two responsible-party keys the script reads unconditionally;
then the output file appears, its metadata location is synthesized from the
quote-stripped detector name, and siteName is the quote-stripped siteInst
value. -/
theorem c8_scenario_amended :
    (L0.process_files fsGoodBase
      ["x_SiteX_20240101_12h00.dat.bz2", "x_SiteX_20240101_12h00.mtd.bz2"]
      "i" "o").crash = none ∧
    (L0.process_files fsGoodBase
      ["x_SiteX_20240101_12h00.dat.bz2", "x_SiteX_20240101_12h00.mtd.bz2"]
      "i" "o").writes.map (fun w => w.1) = ["o/x_SiteX_20240101_12h00.json"] ∧
    (L0.process_files fsGoodBase
      ["x_SiteX_20240101_12h00.dat.bz2", "x_SiteX_20240101_12h00.mtd.bz2"]
      "i" "o").writes.map (fun w => w.2.metadata.location) =
      [some "/HALL_A/x_SiteX_20240101_12h00.mtd.bz2"] ∧
    (L0.process_files fsGoodBase
      ["x_SiteX_20240101_12h00.dat.bz2", "x_SiteX_20240101_12h00.mtd.bz2"]
      "i" "o").writes.map (fun w => w.2.siteName) = ["SiteX"] :=
  ⟨rfl, rfl, rfl, rfl⟩

theorem process_jsonld_ok_inv (fs : FS) (p : String) (mf : PFile) (d : JsonLD)
    (e : S0.Extracted) (hmf : fsGet fs p = some mf) (hdoc : mf.doc = some d)
    (hok : S0.process_jsonld fs p = .ok e) :
    S0.graphFirst (fun n => n.servesDataset) d.graph = .ok e.servesDataset ∧
    S0.graphFirst (fun n => n.accessURL) d.graph = .ok e.access_url ∧
    S0.graphFirst (fun n => n.endedAtTime) d.graph = .ok e.generation_date ∧
    e.file_id = d.title := by
  unfold S0.process_jsonld at hok
  split at hok
  · simp at hok
  · rename_i f heqf
    rw [hmf] at heqf
    injection heqf with hf
    subst hf
    split at hok
    · split at hok
      · simp at hok
      · rename_i data heqd
        rw [hdoc] at heqd
        injection heqd with hd
        subst hd
        split at hok
        · simp at hok
        · rename_i au heqau
          split at hok
          · simp at hok
          · rename_i sd heqsd
            split at hok
            · simp at hok
            · rename_i gd heqgd
              split at hok
              · simp at hok
              · rename_i title heqt
                split at hok
                · simp at hok
                · rename_i site heqs
                  injection hok with h
                  subst h
                  exact ⟨heqsd, heqau, heqgd, rfl⟩
    · simp at hok

theorem process_group_ok_inv (fs : FS)
    (a1 a2 a3 m1 m2 m3 oF : String) (p : String) (d : S0.Descriptor) (lgs : List LogMsg)
    (hok : S0.process_group fs a1 a2 a3 m1 m2 m3 oF = .ok (p, d, lgs)) :
    ∃ e : S0.Extracted, S0.process_jsonld fs m1 = .ok e ∧
      (∃ t, e.file_id = some t ∧ d.Id = pyReplace t ".bz2" "" ∧
        p = osJoin oF (d.Id ++ ".json")) ∧
      (∃ v, e.servesDataset = some v ∧ d.rawData.location = some v) ∧
      d.accessUrl = e.access_url := by
  unfold S0.process_group at hok
  split at hok
  · simp at hok
  · rename_i h1 heq1
    split at hok
    · simp at hok
    · rename_i h2 heq2
      split at hok
      · simp at hok
      · rename_i h3 heq3
        split at hok
        · simp at hok
        · rename_i h4 heq4
          split at hok
          · simp at hok
          · rename_i e heqe
            split at hok
            · simp at hok
            · rename_i ie heqie
              split at hok
              · simp at hok
              · rename_i oe heqoe
                split at hok
                · simp at hok
                · rename_i raw_loc heqsd
                  split at hok
                  · simp at hok
                  · rename_i root_path heqrp
                    split at hok
                    · simp at hok
                    · rename_i file_id heqfid
                      injection hok with h
                      injection h with ha hb
                      injection hb with hb1 hb2
                      subst ha
                      subst hb1
                      subst hb2
                      exact ⟨e, heqe, ⟨file_id, heqfid, rfl, rfl⟩,
                        ⟨raw_loc, heqsd, rfl⟩, rfl⟩

theorem s1_process_group_ok_inv (fs : FS)
    (r1 r2 m1 m2 oF : String) (p : String) (d : S1.Descriptor) (lgs : List LogMsg)
    (hok : S1.process_group fs r1 r2 m1 m2 oF = .ok (p, d, lgs)) :
    ∃ e : S0.Extracted, S1.process_jsonld fs m1 = .ok e ∧
      ∃ t, e.file_id = some t ∧ d.Id = pyReplace t ".pri.bz2" "" ∧
        p = osJoin oF (d.Id ++ ".json") := by
  unfold S1.process_group at hok
  split at hok
  · simp at hok
  · rename_i h1 heq1
    split at hok
    · simp at hok
    · rename_i h2 heq2
      split at hok
      · simp at hok
      · rename_i e heqe
        split at hok
        · simp at hok
        · rename_i prim_loc heqsd
          split at hok
          · simp at hok
          · rename_i root_path heqrp
            split at hok
            · simp at hok
            · rename_i se heqse
              split at hok
              · simp at hok
              · rename_i file_id heqfid
                injection hok with h
                injection h with ha hb
                injection hb with hb1 hb2
                subst ha
                subst hb1
                subst hb2
                exact ⟨e, heqe, file_id, heqfid, rfl, rfl⟩

theorem l0_groupStep_write_inv (fs : FS) (iF oF b : String) (files : List String)
    (p : String) (d : L0.Descriptor)
    (hmem : (p, d) ∈ (L0.groupStep fs iF oF b files).writes) :
    d.Id = b ∧ p = osJoin oF (b ++ ".json") := by
  unfold L0.groupStep at hmem
  split at hmem
  · simp at hmem
  · split at hmem
    · simp only [] at hmem
      split at hmem
      · simp at hmem
      · split at hmem
        · simp at hmem
        · simp at hmem
        · split at hmem
          · simp at hmem
          · split at hmem
            · simp at hmem
            · split at hmem
              · simp at hmem
              · split at hmem
                · simp at hmem
                · simp only [List.mem_singleton, Prod.mk.injEq] at hmem
                  obtain ⟨hp, hd⟩ := hmem
                  subst hp
                  subst hd
                  exact ⟨rfl, rfl⟩
    · simp only [] at hmem
      split at hmem
      · simp at hmem
      · split at hmem
        · simp at hmem
        · simp at hmem
        · split at hmem
          · simp at hmem
          · simp at hmem

/-- Claim C3 against the code (code bug): for a JSON-LD graph document
whose graph array contains no node exposing a requested attribute, the
extractor raises AttributeError rather than returning null: `next` returns
its None default and `.get` is then invoked on None.  With an empty graph
the accessURL scan crashes; with a graph holding only an accessURL node the
servesDataset scan crashes. -/
theorem c3_missing_attribute_crashes :
    S0.process_jsonld [("m/j", { bytes := [1], doc := some docEmptyGraph })] "m/j" =
      .error PyErr.attributeError ∧
    S0.process_jsonld [("m/j", { bytes := [1], doc := some docNoServes })] "m/j" =
      .error PyErr.attributeError :=
  ⟨rfl, rfl⟩

/-- Counterexample to claim C4: for a SimulationV2 group whose JSON-LD
metadata has accessURL but no servesDataset node, no descriptor is emitted
at all - the extractor raises AttributeError while scanning for
servesDataset - so rawData.location is never synthesized from rootPath. -/
theorem c4_counterexample :
    S0.process_group fsNoServes "i/mybase.input" "i/mybase.lst.bz2" "i/mybase.bz2"
      "m/ma" "m/mb" "m/mc" "o" = .error PyErr.attributeError :=
  rfl

/-- Claim C4 (amended): the code has no rootPath synthesis for rawData.
When servesDataset is absent from the raw metadata graph, the group fails
with AttributeError and no descriptor is emitted (see the counterexample);
whenever a descriptor is emitted, its rawData.location is exactly the
servesDataset value found in the graph and accessUrl is exactly the
accessURL value found in the graph. -/
theorem c4_locations_amended (fs : FS)
    (a1 a2 a3 m1 m2 m3 oF : String) (mf : PFile) (doc : JsonLD)
    (p : String) (d : S0.Descriptor) (lgs : List LogMsg)
    (hmf : fsGet fs m1 = some mf) (hdoc : mf.doc = some doc)
    (hok : S0.process_group fs a1 a2 a3 m1 m2 m3 oF = .ok (p, d, lgs)) :
    (∃ v, d.rawData.location = some v ∧
      S0.graphFirst (fun n => n.servesDataset) doc.graph = .ok (some v)) ∧
    S0.graphFirst (fun n => n.accessURL) doc.graph = .ok d.accessUrl := by
  obtain ⟨e, heqe, _, ⟨v, hv, hloc⟩, hau⟩ :=
    process_group_ok_inv fs a1 a2 a3 m1 m2 m3 oF p d lgs hok
  obtain ⟨hsd, hacc, _, _⟩ := process_jsonld_ok_inv fs m1 mf doc e hmf hdoc heqe
  refine ⟨⟨v, hloc, ?_⟩, ?_⟩
  · rw [hsd, hv]
  · rw [hacc, hau]

/-- Witness for C4 (amended) at a concrete complete S0 group whose raw
metadata graph carries both servesDataset and accessURL. -/
theorem c4_witness :
    ∃ (p : String) (d : S0.Descriptor) (lgs : List LogMsg),
      S0.process_group fsS0Full "i/mybase.input" "i/mybase.lst.bz2" "i/mybase.bz2"
        ("m/" ++ entReg1) ("m/" ++ entReg2) ("m/" ++ entReg3) "o" = .ok (p, d, lgs) ∧
      d.rawData.location = some "/root1/file" ∧
      d.accessUrl = some "http://a" := by
  have hok : S0.process_group fsS0Full "i/mybase.input" "i/mybase.lst.bz2" "i/mybase.bz2"
      ("m/" ++ entReg1) ("m/" ++ entReg2) ("m/" ++ entReg3) "o" =
      .ok (((S0.process_group fsS0Full "i/mybase.input" "i/mybase.lst.bz2" "i/mybase.bz2"
          ("m/" ++ entReg1) ("m/" ++ entReg2) ("m/" ++ entReg3) "o").toOption.getD default).1,
        ((S0.process_group fsS0Full "i/mybase.input" "i/mybase.lst.bz2" "i/mybase.bz2"
          ("m/" ++ entReg1) ("m/" ++ entReg2) ("m/" ++ entReg3) "o").toOption.getD default).2.1,
        ((S0.process_group fsS0Full "i/mybase.input" "i/mybase.lst.bz2" "i/mybase.bz2"
          ("m/" ++ entReg1) ("m/" ++ entReg2) ("m/" ++ entReg3) "o").toOption.getD default).2.2) := by
    rfl
  obtain ⟨⟨v, hloc, hv⟩, hau⟩ := c4_locations_amended fsS0Full "i/mybase.input"
    "i/mybase.lst.bz2" "i/mybase.bz2" ("m/" ++ entReg1) ("m/" ++ entReg2) ("m/" ++ entReg3)
    "o" ⟨true, [1], [], [], some docMain⟩ docMain _ _ _ (by rfl) (by rfl) hok
  have hg : S0.graphFirst (fun n => n.servesDataset) docMain.graph =
      .ok (some "/root1/file") := rfl
  have hg2 : S0.graphFirst (fun n => n.accessURL) docMain.graph =
      .ok (some "http://a") := rfl
  have hau2 := hau.symm.trans hg2
  injection hau2 with hau3
  refine ⟨_, _, _, hok, ?_, hau3⟩
  rw [hloc]
  injection hv.symm.trans hg with h1

/-- Counterexample to claim C7: in the S0 pipeline the descriptor Id comes
from the JSON-LD title, not from the group base name.  The complete group
with base name `mybase` (raw archive `mybase.bz2`) and metadata title
`S0_siteA_whatever` produces a descriptor whose Id and output file name are
derived from the title, while the base name with its suffix stripped is
still `mybase`. -/
theorem c7_counterexample :
    runS0Full.writes.map (fun w => (w.1, w.2.Id)) =
      [("o/S0_siteA_whatever.json", "S0_siteA_whatever")] ∧
    pyReplace "mybase" ".bz2" "" = "mybase" ∧
    ("S0_siteA_whatever" : String) ≠ "mybase" :=
  ⟨rfl, rfl, by decide⟩

/-- Claim C7 (amended): in the L0 pipeline the descriptor Id is the group
base name and the output file is {Id}.json; in the S0 and S1 pipelines the
Id is the JSON-LD title of the raw-data (resp. primary) metadata document
with every occurrence of ".bz2" (S0) or ".pri.bz2" (S1) removed - the
title, not the group base name, and `replace` removes every occurrence,
not only a trailing suffix - and the output file is {Id}.json. -/
theorem c7_descriptor_id_amended :
    (∀ (fs : FS) (iF oF b : String) (files : List String) (p : String)
      (d : L0.Descriptor), (p, d) ∈ (L0.groupStep fs iF oF b files).writes →
      d.Id = b ∧ p = osJoin oF (b ++ ".json")) ∧
    (∀ (fs : FS) (a1 a2 a3 m1 m2 m3 oF : String) (mf : PFile) (doc : JsonLD)
      (t p : String) (d : S0.Descriptor) (lgs : List LogMsg),
      fsGet fs m1 = some mf → mf.doc = some doc → doc.title = some t →
      S0.process_group fs a1 a2 a3 m1 m2 m3 oF = .ok (p, d, lgs) →
      d.Id = pyReplace t ".bz2" "" ∧ p = osJoin oF (d.Id ++ ".json")) ∧
    (∀ (fs : FS) (r1 r2 m1 m2 oF : String) (mf : PFile) (doc : JsonLD)
      (t p : String) (d : S1.Descriptor) (lgs : List LogMsg),
      fsGet fs m1 = some mf → mf.doc = some doc → doc.title = some t →
      S1.process_group fs r1 r2 m1 m2 oF = .ok (p, d, lgs) →
      d.Id = pyReplace t ".pri.bz2" "" ∧ p = osJoin oF (d.Id ++ ".json")) := by
  refine ⟨fun fs iF oF b files p d h => l0_groupStep_write_inv fs iF oF b files p d h,
    ?_, ?_⟩
  · intro fs a1 a2 a3 m1 m2 m3 oF mf doc t p d lgs hmf hdoc ht hok
    obtain ⟨e, heqe, ⟨t2, hfid, hid, hp⟩, _, _⟩ :=
      process_group_ok_inv fs a1 a2 a3 m1 m2 m3 oF p d lgs hok
    obtain ⟨_, _, _, hfid2⟩ := process_jsonld_ok_inv fs m1 mf doc e hmf hdoc heqe
    have ht2 : (some t2 : Option String) = some t := hfid.symm.trans (hfid2.trans ht)
    injection ht2 with ht3
    subst ht3
    exact ⟨hid, hp⟩
  · intro fs r1 r2 m1 m2 oF mf doc t p d lgs hmf hdoc ht hok
    obtain ⟨e, heqe, t2, hfid, hid, hp⟩ :=
      s1_process_group_ok_inv fs r1 r2 m1 m2 oF p d lgs hok
    obtain ⟨_, _, _, hfid2⟩ := process_jsonld_ok_inv fs m1 mf doc e hmf hdoc heqe
    have ht2 : (some t2 : Option String) = some t := hfid.symm.trans (hfid2.trans ht)
    injection ht2 with ht3
    subst ht3
    exact ⟨hid, hp⟩

/-- Witness for C7 (amended) at concrete complete groups of all three
pipelines. -/
theorem c7_witness :
    (((L0.groupStep fsGoodBase "i" "o" "x_SiteX_20240101_12h00"
        ["x_SiteX_20240101_12h00.dat.bz2", "x_SiteX_20240101_12h00.mtd.bz2"]).writes.headD
          default).2.Id = "x_SiteX_20240101_12h00") ∧
    (∃ (p : String) (d : S0.Descriptor) (lgs : List LogMsg),
      S0.process_group fsS0Full "i/mybase.input" "i/mybase.lst.bz2" "i/mybase.bz2"
        ("m/" ++ entReg1) ("m/" ++ entReg2) ("m/" ++ entReg3) "o" = .ok (p, d, lgs) ∧
      d.Id = "S0_siteA_whatever") ∧
    (∃ (p : String) (d : S1.Descriptor) (lgs : List LogMsg),
      S1.process_group fsS1Full "i/dual.pri.bz2" "i/dual.sec.bz2"
        "m/.dual.pri.bz2.jsonld" "m/.dual.sec.bz2.jsonld" "o" = .ok (p, d, lgs) ∧
      d.Id = "S1_siteB_x") := by
  refine ⟨?_, ?_, ?_⟩
  · have h := c7_descriptor_id_amended.1 fsGoodBase "i" "o" "x_SiteX_20240101_12h00"
      ["x_SiteX_20240101_12h00.dat.bz2", "x_SiteX_20240101_12h00.mtd.bz2"]
      ((L0.groupStep fsGoodBase "i" "o" "x_SiteX_20240101_12h00"
        ["x_SiteX_20240101_12h00.dat.bz2", "x_SiteX_20240101_12h00.mtd.bz2"]).writes.headD
          default).1
      ((L0.groupStep fsGoodBase "i" "o" "x_SiteX_20240101_12h00"
        ["x_SiteX_20240101_12h00.dat.bz2", "x_SiteX_20240101_12h00.mtd.bz2"]).writes.headD
          default).2
      (List.Mem.head _)
    exact h.1
  · have hok : S0.process_group fsS0Full "i/mybase.input" "i/mybase.lst.bz2" "i/mybase.bz2"
        ("m/" ++ entReg1) ("m/" ++ entReg2) ("m/" ++ entReg3) "o" =
        .ok (((S0.process_group fsS0Full "i/mybase.input" "i/mybase.lst.bz2" "i/mybase.bz2"
            ("m/" ++ entReg1) ("m/" ++ entReg2) ("m/" ++ entReg3) "o").toOption.getD default).1,
          ((S0.process_group fsS0Full "i/mybase.input" "i/mybase.lst.bz2" "i/mybase.bz2"
            ("m/" ++ entReg1) ("m/" ++ entReg2) ("m/" ++ entReg3) "o").toOption.getD default).2.1,
          ((S0.process_group fsS0Full "i/mybase.input" "i/mybase.lst.bz2" "i/mybase.bz2"
            ("m/" ++ entReg1) ("m/" ++ entReg2) ("m/" ++ entReg3) "o").toOption.getD default).2.2) := by
      rfl
    have h := c7_descriptor_id_amended.2.1 fsS0Full "i/mybase.input" "i/mybase.lst.bz2"
      "i/mybase.bz2" ("m/" ++ entReg1) ("m/" ++ entReg2) ("m/" ++ entReg3) "o"
      ⟨true, [1], [], [], some docMain⟩ docMain "S0_siteA_whatever" _ _ _
      (by rfl) (by rfl) (by rfl) hok
    exact ⟨_, _, _, hok, h.1⟩
  · have hok : S1.process_group fsS1Full "i/dual.pri.bz2" "i/dual.sec.bz2"
        "m/.dual.pri.bz2.jsonld" "m/.dual.sec.bz2.jsonld" "o" =
        .ok (((S1.process_group fsS1Full "i/dual.pri.bz2" "i/dual.sec.bz2"
            "m/.dual.pri.bz2.jsonld" "m/.dual.sec.bz2.jsonld" "o").toOption.getD default).1,
          ((S1.process_group fsS1Full "i/dual.pri.bz2" "i/dual.sec.bz2"
            "m/.dual.pri.bz2.jsonld" "m/.dual.sec.bz2.jsonld" "o").toOption.getD default).2.1,
          ((S1.process_group fsS1Full "i/dual.pri.bz2" "i/dual.sec.bz2"
            "m/.dual.pri.bz2.jsonld" "m/.dual.sec.bz2.jsonld" "o").toOption.getD default).2.2) := by
      rfl
    have h := c7_descriptor_id_amended.2.2 fsS1Full "i/dual.pri.bz2" "i/dual.sec.bz2"
      "m/.dual.pri.bz2.jsonld" "m/.dual.sec.bz2.jsonld" "o"
      ⟨true, [1], [], [], some docS1Pri⟩ docS1Pri "S1_siteB_x.pri.bz2" _ _ _
      (by rfl) (by rfl) (by rfl) hok
    refine ⟨_, _, _, hok, ?_⟩
    rw [h.1]
    rfl

/-- Counterexample to claim C2: a candidate S0 group whose raw-data member
is absent from disk, in a metadata folder holding an entry that matches the
name pattern but carries no well-formed timestamp.  The TypeError raised by
get_latest_metadata_file aborts the run before the completeness check: no
diagnostic is printed and the pipeline does not continue. -/
theorem c2_counterexample :
    pexists fsS0Missing "i/mybase.bz2" = false ∧
    runS0BadMeta.crash = some PyErr.typeError ∧
    runS0BadMeta.logs = [] ∧
    runS0BadMeta.writes = [] :=
  ⟨rfl, rfl, rfl, rfl⟩

/-- Claim C2 (amended): provided the three timestamped-metadata lookups of
the group do not themselves fail, an S0 candidate group with at least one
required member absent yields no write and no exception, prints exactly one
diagnostic naming the group and the missing members, and the run continues
with the remaining candidates; in the L0 pipeline the arity gate is
unconditional: a group not holding exactly two files is skipped with a
diagnostic and the run continues. -/
theorem c2_completeness_gate_amended :
    (∀ (fs : FS) (metaListing : List String) (iF mF oF nm : String)
      (rest : List String) (om oim oom : Option String),
      S0.get_latest_metadata_file ((pySplit (pyReplace nm ".input" "") '-').headD "")
        mF ".bz2.jsonld" metaListing = .ok om →
      S0.get_latest_metadata_file (pyReplace nm ".input" "") mF ".input.jsonld"
        metaListing = .ok oim →
      S0.get_latest_metadata_file (pyReplace nm ".input" "") mF ".lst.bz2.jsonld"
        metaListing = .ok oom →
      ([some (osJoin iF (pyReplace nm ".input" "" ++ ".input")),
        some (osJoin iF ((pySplit (pyReplace nm ".input" "") '-').headD "" ++ ".bz2")),
        om, oim,
        some (osJoin iF (pyReplace nm ".input" "" ++ ".lst.bz2")), oom] :
          List (Option String)).all (S0.memberOk fs) = false →
      (S0.groupStep fs metaListing iF mF oF nm).writes = [] ∧
      (S0.groupStep fs metaListing iF mF oF nm).err = none ∧
      (S0.groupStep fs metaListing iF mF oF nm).logs =
        [.skip (pyReplace nm ".input" "")
          (([some (osJoin iF (pyReplace nm ".input" "" ++ ".input")),
             some (osJoin iF ((pySplit (pyReplace nm ".input" "") '-').headD "" ++ ".bz2")),
             om, oim,
             some (osJoin iF (pyReplace nm ".input" "" ++ ".lst.bz2")), oom] :
               List (Option String)).filter (fun o => !(S0.memberOk fs o)))] ∧
      (S0.s0Go fs metaListing iF mF oF (nm :: rest)).writes =
        (S0.s0Go fs metaListing iF mF oF rest).writes ∧
      (S0.s0Go fs metaListing iF mF oF (nm :: rest)).crash =
        (S0.s0Go fs metaListing iF mF oF rest).crash) ∧
    (∀ (fs : FS) (iF oF b : String) (files : List String)
      (rest : List (String × List String)), files.length ≠ 2 →
      (L0.groupStep fs iF oF b files).writes = [] ∧
      (L0.groupStep fs iF oF b files).err = none ∧
      (L0.groupStep fs iF oF b files).logs = [.skipIncomplete b] ∧
      (L0.l0Go fs iF oF ((b, files) :: rest)).writes = (L0.l0Go fs iF oF rest).writes ∧
      (L0.l0Go fs iF oF ((b, files) :: rest)).crash = (L0.l0Go fs iF oF rest).crash) := by
  constructor
  · intro fs metaListing iF mF oF nm rest om oim oom hom hoim hoom hall
    have hstep : S0.groupStep fs metaListing iF mF oF nm =
        { writes := [],
          logs := [.skip (pyReplace nm ".input" "")
            (([some (osJoin iF (pyReplace nm ".input" "" ++ ".input")),
               some (osJoin iF ((pySplit (pyReplace nm ".input" "") '-').headD "" ++ ".bz2")),
               om, oim,
               some (osJoin iF (pyReplace nm ".input" "" ++ ".lst.bz2")), oom] :
                 List (Option String)).filter (fun o => !(S0.memberOk fs o)))],
          err := none } := by
      unfold S0.groupStep
      simp only [hom, hoim, hoom]
      rw [if_neg (by simp only [hall]; exact Bool.false_ne_true)]
    have hrun := s0Go_cons_ok fs metaListing iF mF oF nm rest (by rw [hstep])
    rw [hrun, hstep]
    exact ⟨rfl, rfl, rfl, rfl, rfl⟩
  · intro fs iF oF b files rest hlen
    have hstep : L0.groupStep fs iF oF b files =
        { writes := [], logs := [.skipIncomplete b], err := none } := by
      unfold L0.groupStep
      rw [if_pos hlen]
    have hrun := l0Go_cons_ok fs iF oF b files rest (by rw [hstep])
    rw [hrun, hstep]
    exact ⟨rfl, rfl, rfl, rfl, rfl⟩

/-- Witness for C2 (amended): an S0 candidate group with its raw-data
member absent and well-formed metadata entries is skipped without aborting,
and an L0 group holding a single file is skipped with a diagnostic. -/
theorem c2_witness :
    (S0.groupStep fsS0Missing [entReg1, entReg2, entReg3] "i" "m" "o" "mybase.input").writes = [] ∧
    (S0.groupStep fsS0Missing [entReg1, entReg2, entReg3] "i" "m" "o" "mybase.input").err = none ∧
    (S0.s0Go fsS0Missing [entReg1, entReg2, entReg3] "i" "m" "o" ["mybase.input"]).crash =
      (S0.s0Go fsS0Missing [entReg1, entReg2, entReg3] "i" "m" "o" []).crash ∧
    (L0.groupStep [] "i" "o" "solo" ["solo.dat.bz2"]).writes = [] ∧
    (L0.groupStep [] "i" "o" "solo" ["solo.dat.bz2"]).logs = [.skipIncomplete "solo"] := by
  have h1 := c2_completeness_gate_amended.1 fsS0Missing [entReg1, entReg2, entReg3]
    "i" "m" "o" "mybase.input" []
    (some ("m/" ++ entReg1)) (some ("m/" ++ entReg2)) (some ("m/" ++ entReg3))
    (by rfl) (by rfl) (by rfl) (by rfl)
  have h2 := c2_completeness_gate_amended.2 [] "i" "o" "solo" ["solo.dat.bz2"] []
    (by decide)
  exact ⟨h1.1, h1.2.1, h1.2.2.2.2, h2.1, h2.2.2.1⟩

theorem groupEntry_addToGroups_same (acc : List (String × List String)) (b f : String) :
    L0.groupEntry b (L0.addToGroups acc b f) = L0.groupEntry b acc ++ [f] := by
  induction acc with
  | nil => simp [L0.addToGroups, L0.groupEntry]
  | cons e rest ih =>
    obtain ⟨b2, fl⟩ := e
    by_cases h : b2 = b
    · subst h
      simp [L0.addToGroups, L0.groupEntry]
    · simp [L0.addToGroups, L0.groupEntry, h, ih]

theorem groupEntry_addToGroups_other (acc : List (String × List String)) (k b f : String)
    (hne : b ≠ k) : L0.groupEntry b (L0.addToGroups acc k f) = L0.groupEntry b acc := by
  induction acc with
  | nil =>
    simp [L0.addToGroups, L0.groupEntry]
    intro h
    exact absurd h.symm hne
  | cons e rest ih =>
    obtain ⟨b2, fl⟩ := e
    by_cases h : b2 = k
    · subst h
      have : b2 ≠ b := fun hc => hne hc.symm
      simp [L0.addToGroups, L0.groupEntry, this]
    · by_cases h2 : b2 = b
      · subst h2
        simp [L0.addToGroups, L0.groupEntry, h]
      · simp [L0.addToGroups, L0.groupEntry, h, h2, ih]

theorem keys_addToGroups (acc : List (String × List String)) (k f : String) :
    (L0.addToGroups acc k f).map Prod.fst =
      if k ∈ acc.map Prod.fst then acc.map Prod.fst else acc.map Prod.fst ++ [k] := by
  induction acc with
  | nil => simp [L0.addToGroups]
  | cons e rest ih =>
    obtain ⟨b2, fl⟩ := e
    by_cases h : b2 = k
    · subst h
      simp [L0.addToGroups]
    · have hne : k ≠ b2 := fun hc => h hc.symm
      by_cases hk : k ∈ rest.map Prod.fst
      · simp [L0.addToGroups, h, ih, hk, hne]
      · simp [L0.addToGroups, h, ih, hk, hne]

theorem buildAux_spec (l : List String) :
    ∀ acc : List (String × List String), (acc.map Prod.fst).Nodup →
      ((l.foldl (fun a f => if L0.l0Matches f then L0.addToGroups a (rsplit2head f) f
          else a) acc).map Prod.fst).Nodup ∧
      (∀ b, b ∈ (l.foldl (fun a f => if L0.l0Matches f then
          L0.addToGroups a (rsplit2head f) f else a) acc).map Prod.fst ↔
        b ∈ acc.map Prod.fst ∨ ∃ f ∈ l, L0.l0Matches f = true ∧ rsplit2head f = b) ∧
      (∀ b, L0.groupEntry b (l.foldl (fun a f => if L0.l0Matches f then
          L0.addToGroups a (rsplit2head f) f else a) acc) =
        L0.groupEntry b acc ++ l.filter (fun f => L0.l0Matches f && (rsplit2head f == b))) := by
  induction l with
  | nil =>
    intro acc hnd
    exact ⟨hnd, by simp, by simp⟩
  | cons f t ih =>
    intro acc hnd
    simp only [List.foldl_cons]
    by_cases hm : L0.l0Matches f = true
    · rw [if_pos hm]
      have hnd2 : ((L0.addToGroups acc (rsplit2head f) f).map Prod.fst).Nodup := by
        rw [keys_addToGroups]
        by_cases hk : rsplit2head f ∈ acc.map Prod.fst
        · simp only [if_pos hk]
          exact hnd
        · simp only [if_neg hk]
          simp [List.nodup_append, hnd, hk]
      obtain ⟨hnd3, hkeys, hentry⟩ := ih (L0.addToGroups acc (rsplit2head f) f) hnd2
      refine ⟨hnd3, ?_, ?_⟩
      · intro b
        rw [hkeys b, keys_addToGroups]
        constructor
        · rintro (h | ⟨g, hg, hgm, hgb⟩)
          · by_cases hk : rsplit2head f ∈ acc.map Prod.fst
            · rw [if_pos hk] at h
              exact Or.inl h
            · rw [if_neg hk] at h
              rcases List.mem_append.mp h with h2 | h2
              · exact Or.inl h2
              · exact Or.inr ⟨f, List.mem_cons_self f t, hm,
                  (List.mem_singleton.mp h2).symm⟩
          · exact Or.inr ⟨g, List.mem_cons_of_mem f hg, hgm, hgb⟩
        · rintro (h | ⟨g, hg, hgm, hgb⟩)
          · left
            by_cases hk : rsplit2head f ∈ acc.map Prod.fst
            · rw [if_pos hk]
              exact h
            · rw [if_neg hk]
              exact List.mem_append.mpr (Or.inl h)
          · rcases List.mem_cons.mp hg with rfl | hg2
            · left
              by_cases hk : rsplit2head g ∈ acc.map Prod.fst
              · rw [if_pos hk, ← hgb]
                exact hk
              · rw [if_neg hk, ← hgb]
                exact List.mem_append.mpr (Or.inr (List.mem_singleton.mpr rfl))
            · exact Or.inr ⟨g, hg2, hgm, hgb⟩
      · intro b
        rw [hentry b]
        by_cases hb : rsplit2head f = b
        · rw [hb, groupEntry_addToGroups_same]
          have hpred : (L0.l0Matches f && (rsplit2head f == b)) = true := by
            simp [hm, hb]
          simp [List.filter_cons, hpred]
        · rw [groupEntry_addToGroups_other _ _ _ _ (fun hc => hb hc.symm)]
          have hpred : (L0.l0Matches f && (rsplit2head f == b)) = false := by
            simp [hb]
          simp [List.filter_cons, hpred]
    · rw [if_neg hm]
      obtain ⟨hnd3, hkeys, hentry⟩ := ih acc hnd
      refine ⟨hnd3, ?_, ?_⟩
      · intro b
        rw [hkeys b]
        constructor
        · rintro (h | ⟨g, hg, hgm, hgb⟩)
          · exact Or.inl h
          · exact Or.inr ⟨g, List.mem_cons_of_mem f hg, hgm, hgb⟩
        · rintro (h | ⟨g, hg, hgm, hgb⟩)
          · exact Or.inl h
          · rcases List.mem_cons.mp hg with rfl | hg2
            · exact absurd hgm hm
            · exact Or.inr ⟨g, hg2, hgm, hgb⟩
      · intro b
        rw [hentry b]
        have hpred : (L0.l0Matches f && (rsplit2head f == b)) = false := by
          simp [hm]
        simp [List.filter_cons, hpred]

theorem buildGroups_spec (l : List String) :
    ((L0.buildGroups l).map Prod.fst).Nodup ∧
    (∀ b, b ∈ (L0.buildGroups l).map Prod.fst ↔
      ∃ f ∈ l, L0.l0Matches f = true ∧ rsplit2head f = b) ∧
    (∀ b, L0.groupEntry b (L0.buildGroups l) =
      l.filter (fun f => L0.l0Matches f && (rsplit2head f == b))) := by
  have h := buildAux_spec l [] (by simp)
  unfold L0.buildGroups
  refine ⟨h.1, ?_, ?_⟩
  · intro b
    have := h.2.1 b
    simpa using this
  · intro b
    have := h.2.2 b
    simpa [L0.groupEntry] using this

theorem mem_groups_iff (gs : List (String × List String))
    (hnd : (gs.map Prod.fst).Nodup) (b : String) (fl : List String) :
    (b, fl) ∈ gs ↔ b ∈ gs.map Prod.fst ∧ fl = L0.groupEntry b gs := by
  induction gs with
  | nil => simp
  | cons e rest ih =>
    obtain ⟨b2, fl2⟩ := e
    simp only [List.map_cons, List.nodup_cons] at hnd
    obtain ⟨hnotin, hndr⟩ := hnd
    by_cases h : b2 = b
    · subst h
      have hentry : L0.groupEntry b2 ((b2, fl2) :: rest) = fl2 := by
        simp [L0.groupEntry]
      rw [hentry]
      constructor
      · intro hmem
        rcases List.mem_cons.mp hmem with heq | hmem2
        · injection heq with _ hb2
          exact ⟨List.mem_cons_self _ _, hb2⟩
        · exact absurd (List.mem_map.mpr ⟨(b2, fl), hmem2, rfl⟩) hnotin
      · rintro ⟨_, rfl⟩
        exact List.mem_cons_self _ _
    · have hentry : L0.groupEntry b ((b2, fl2) :: rest) = L0.groupEntry b rest := by
        simp [L0.groupEntry, h]
      rw [hentry]
      simp only [List.map_cons]
      constructor
      · intro hmem
        rcases List.mem_cons.mp hmem with heq | hmem2
        · injection heq with ha _
          exact absurd ha.symm h
        · have h2 := (ih hndr).mp hmem2
          exact ⟨List.mem_cons.mpr (Or.inr h2.1), h2.2⟩
      · rintro ⟨hbmem, hfl⟩
        rcases List.mem_cons.mp hbmem with heq | hmem2
        · exact absurd heq.symm h
        · exact List.mem_cons.mpr (Or.inr ((ih hndr).mpr ⟨hmem2, hfl⟩))

theorem l0_groupStep_congr_length (fs : FS) (iF oF b : String)
    (files1 files2 : List String) (h : files1.length = files2.length) :
    L0.groupStep fs iF oF b files1 = L0.groupStep fs iF oF b files2 := by
  unfold L0.groupStep
  rw [h]

theorem l0Go_crash_none_iff (fs : FS) (iF oF : String)
    (gs : List (String × List String)) :
    (L0.l0Go fs iF oF gs).crash = none ↔
      ∀ g ∈ gs, (L0.groupStep fs iF oF g.1 g.2).err = none := by
  induction gs with
  | nil => simp [L0.l0Go]
  | cons g rest ih =>
    obtain ⟨b, files⟩ := g
    cases herr : (L0.groupStep fs iF oF b files).err with
    | some e =>
      rw [l0Go_cons_err fs iF oF b files rest e herr]
      constructor
      · intro h
        simp at h
      · intro h
        have h2 := h (b, files) (List.mem_cons_self _ _)
        rw [herr] at h2
        exact absurd h2 (by simp)
    | none =>
      rw [l0Go_cons_ok fs iF oF b files rest herr]
      constructor
      · intro h g hg
        rcases List.mem_cons.mp hg with heq | hg2
        · rw [heq]
          exact herr
        · exact (ih.mp h) g hg2
      · intro h
        exact ih.mpr (fun g hg => h g (List.mem_cons_of_mem _ hg))

theorem l0Go_writes_eq (fs : FS) (iF oF : String) (gs : List (String × List String))
    (h : ∀ g ∈ gs, (L0.groupStep fs iF oF g.1 g.2).err = none) :
    (L0.l0Go fs iF oF gs).writes =
      gs.flatMap (fun g => (L0.groupStep fs iF oF g.1 g.2).writes) := by
  induction gs with
  | nil => simp [L0.l0Go]
  | cons g rest ih =>
    obtain ⟨b, files⟩ := g
    have herr := h (b, files) (List.mem_cons_self _ _)
    rw [l0Go_cons_ok fs iF oF b files rest herr]
    simp only [List.flatMap_cons]
    rw [ih (fun g hg => h g (List.mem_cons_of_mem _ hg))]

/-- Counterexample to claim C9: the set of written files is not independent
of directory-listing order.  Over the same directory content, the listing
that reaches the crashing group `run1` first writes nothing, while the
reversed listing writes the healthy group before crashing. -/
theorem c9_counterexample :
    listingCrashFirst.Perm listingHealthyFirst ∧
    (L0.process_files fsTwoGroups listingCrashFirst "i" "o").writes.map
      (fun w => w.1) = [] ∧
    (L0.process_files fsTwoGroups listingHealthyFirst "i" "o").writes.map
      (fun w => w.1) = ["o/x_SiteX_20240101_12h00.json"] :=
  ⟨by decide, rfl, rfl⟩

/-- Claim C9 (amended): in the L0 pipeline, as long as no group raises an
uncaught exception, the multiset of written descriptor files (paths and
contents) is independent of the directory-listing order: a permuted listing
yields a permutation of the same writes, and the permuted run does not
crash either. -/
theorem c9_idempotence_amended (fs : FS) (iF oF : String) (l1 l2 : List String)
    (hperm : l1.Perm l2)
    (hnc : (L0.process_files fs l1 iF oF).crash = none) :
    (L0.process_files fs l2 iF oF).crash = none ∧
    ((L0.process_files fs l1 iF oF).writes).Perm
      ((L0.process_files fs l2 iF oF).writes) := by
  obtain ⟨hnd1, hkeys1, hent1⟩ := buildGroups_spec l1
  obtain ⟨hnd2, hkeys2, hent2⟩ := buildGroups_spec l2
  have hpf1 : L0.process_files fs l1 iF oF = L0.l0Go fs iF oF (L0.buildGroups l1) := rfl
  have hpf2 : L0.process_files fs l2 iF oF = L0.l0Go fs iF oF (L0.buildGroups l2) := rfl
  rw [hpf1] at hnc
  have herr1 : ∀ g ∈ L0.buildGroups l1, (L0.groupStep fs iF oF g.1 g.2).err = none :=
    (l0Go_crash_none_iff fs iF oF _).mp hnc
  have hlen : ∀ b, (L0.groupEntry b (L0.buildGroups l1)).length =
      (L0.groupEntry b (L0.buildGroups l2)).length := by
    intro b
    rw [hent1 b, hent2 b, ← List.countP_eq_length_filter, ← List.countP_eq_length_filter]
    exact hperm.countP_eq _
  have hkeysiff : ∀ b, b ∈ (L0.buildGroups l1).map Prod.fst ↔
      b ∈ (L0.buildGroups l2).map Prod.fst := by
    intro b
    rw [hkeys1 b, hkeys2 b]
    constructor
    · rintro ⟨f, hf, hfm, hfb⟩
      exact ⟨f, hperm.mem_iff.mp hf, hfm, hfb⟩
    · rintro ⟨f, hf, hfm, hfb⟩
      exact ⟨f, hperm.mem_iff.mpr hf, hfm, hfb⟩
  have herr2 : ∀ g ∈ L0.buildGroups l2, (L0.groupStep fs iF oF g.1 g.2).err = none := by
    rintro ⟨b, fl⟩ hg
    obtain ⟨hb2, hfl⟩ := (mem_groups_iff _ hnd2 b fl).mp hg
    have hb1 : b ∈ (L0.buildGroups l1).map Prod.fst := (hkeysiff b).mpr hb2
    have hg1 : (b, L0.groupEntry b (L0.buildGroups l1)) ∈ L0.buildGroups l1 :=
      (mem_groups_iff _ hnd1 b _).mpr ⟨hb1, rfl⟩
    have he1 := herr1 _ hg1
    have hstep : L0.groupStep fs iF oF b fl =
        L0.groupStep fs iF oF b (L0.groupEntry b (L0.buildGroups l1)) := by
      apply l0_groupStep_congr_length
      rw [hfl, hlen b]
    rw [hstep]
    exact he1
  have hcrash2 : (L0.l0Go fs iF oF (L0.buildGroups l2)).crash = none :=
    (l0Go_crash_none_iff fs iF oF _).mpr herr2
  refine ⟨by rw [hpf2]; exact hcrash2, ?_⟩
  have hw1 := l0Go_writes_eq fs iF oF _ herr1
  have hw2 := l0Go_writes_eq fs iF oF _ herr2
  rw [hpf1, hpf2, hw1, hw2]
  have hflat : ∀ gs : List (String × List String),
      gs.flatMap (fun g => (L0.groupStep fs iF oF g.1 g.2).writes) =
      (gs.map (fun g => (g.1, g.2.length))).flatMap
        (fun q => (L0.groupStep fs iF oF q.1 (List.replicate q.2 "")).writes) := by
    intro gs
    induction gs with
    | nil => simp
    | cons g rest ihg =>
      simp only [List.flatMap_cons, List.map_cons, ihg]
      congr 1
      apply congrArg
      apply l0_groupStep_congr_length
      simp
  rw [hflat (L0.buildGroups l1), hflat (L0.buildGroups l2)]
  apply List.Perm.flatMap_right
  have hndg1 : ((L0.buildGroups l1).map (fun g => (g.1, g.2.length))).Nodup := by
    apply List.Nodup.of_map Prod.fst
    rw [List.map_map]
    exact hnd1
  have hndg2 : ((L0.buildGroups l2).map (fun g => (g.1, g.2.length))).Nodup := by
    apply List.Nodup.of_map Prod.fst
    rw [List.map_map]
    exact hnd2
  apply (List.perm_ext_iff_of_nodup hndg1 hndg2).mpr
  rintro ⟨b, n⟩
  constructor
  · intro hq
    obtain ⟨g, hgmem, hgeq⟩ := List.mem_map.mp hq
    obtain ⟨b2, fl⟩ := g
    injection hgeq with he1 he2
    subst he1
    obtain ⟨hb, hfl⟩ := (mem_groups_iff _ hnd1 _ _).mp hgmem
    have hbk2 : b2 ∈ (L0.buildGroups l2).map Prod.fst := (hkeysiff _).mp hb
    have hg2 : (b2, L0.groupEntry b2 (L0.buildGroups l2)) ∈ L0.buildGroups l2 :=
      (mem_groups_iff _ hnd2 _ _).mpr ⟨hbk2, rfl⟩
    apply List.mem_map.mpr
    refine ⟨(b2, L0.groupEntry b2 (L0.buildGroups l2)), hg2, ?_⟩
    show (b2, (L0.groupEntry b2 (L0.buildGroups l2)).length) = (b2, n)
    rw [← hlen, ← hfl, he2]
  · intro hq
    obtain ⟨g, hgmem, hgeq⟩ := List.mem_map.mp hq
    obtain ⟨b2, fl⟩ := g
    injection hgeq with he1 he2
    subst he1
    obtain ⟨hb, hfl⟩ := (mem_groups_iff _ hnd2 _ _).mp hgmem
    have hbk1 : b2 ∈ (L0.buildGroups l1).map Prod.fst := (hkeysiff _).mpr hb
    have hg1 : (b2, L0.groupEntry b2 (L0.buildGroups l1)) ∈ L0.buildGroups l1 :=
      (mem_groups_iff _ hnd1 _ _).mpr ⟨hbk1, rfl⟩
    apply List.mem_map.mpr
    refine ⟨(b2, L0.groupEntry b2 (L0.buildGroups l1)), hg1, ?_⟩
    show (b2, (L0.groupEntry b2 (L0.buildGroups l1)).length) = (b2, n)
    rw [hlen, ← hfl, he2]

/-- Witness for C9 (amended): a crash-free single-group run and its
reversed listing produce permuted (here equal) writes and no crash. -/
theorem c9_witness :
    (L0.process_files fsGoodBase
      ["x_SiteX_20240101_12h00.mtd.bz2", "x_SiteX_20240101_12h00.dat.bz2"]
      "i" "o").crash = none ∧
    ((L0.process_files fsGoodBase
      ["x_SiteX_20240101_12h00.dat.bz2", "x_SiteX_20240101_12h00.mtd.bz2"]
      "i" "o").writes).Perm
      ((L0.process_files fsGoodBase
        ["x_SiteX_20240101_12h00.mtd.bz2", "x_SiteX_20240101_12h00.dat.bz2"]
        "i" "o").writes) :=
  c9_idempotence_amended fsGoodBase "i" "o"
    ["x_SiteX_20240101_12h00.dat.bz2", "x_SiteX_20240101_12h00.mtd.bz2"]
    ["x_SiteX_20240101_12h00.mtd.bz2", "x_SiteX_20240101_12h00.dat.bz2"]
    (by decide) (by rfl)
